import Mathlib

/-!
Shallow embedding of the phenoscale_collab drone-NDVI scripts:
  - src/scripts/drone_ndvi/flight_areas.py
  - src/scripts/drone_ndvi/ndvi_extraction.py
  - src/scripts/drone_ndvi/parallel_ndviExtraction.py

Geometry is modelled with axis-aligned rectangles over ℤ (the grid tiles of
flight_areas.py are rectangular grid cells; intersection, area and bounds of
rectangles are exactly computable, and the rtree bounding-box index on
rectangles is the rectangle-overlap test itself).  Intersection areas, which
the scripts compute as Python floats, are therefore integers here.  File
system and raster I/O are abstracted: directory listings become lists of
names, and the result of one rasterstats.zonal_stats call becomes an
Except value (error = the exception the call raised).
-/

namespace PhenoScale

/-! ### Geometry model (shapely / rtree, as used by flight_areas.py) -/

/-- Axis-aligned rectangle with integer corners, standing for a shapely
polygon geometry.  Degenerate rectangles (xmax ≤ xmin or ymax ≤ ymin)
stand for empty geometries. -/
structure Rect where
  xmin : Int
  ymin : Int
  xmax : Int
  ymax : Int
deriving DecidableEq, Repr

/-- Emptiness of a rectangle (shapely's geometry.is_empty for this model). -/
def Rect.isEmptyRect (r : Rect) : Bool :=
  r.xmax ≤ r.xmin || r.ymax ≤ r.ymin

/-- Area of a rectangle (shapely's geometry.area for this model). -/
def Rect.area (r : Rect) : Int :=
  if r.isEmptyRect then 0 else (r.xmax - r.xmin) * (r.ymax - r.ymin)

/-- Intersection of two rectangles (geometry.intersection for this model:
the intersection of two axis-aligned rectangles is again one). -/
def Rect.inter (a b : Rect) : Rect :=
  ⟨max a.xmin b.xmin, max a.ymin b.ymin, min a.xmax b.xmax, min a.ymax b.ymax⟩

/-- Bounding-box overlap, the test performed by an rtree index query
idx.intersection(g.bounds): closed boxes, touching boxes count as
intersecting. -/
def Rect.bboxIntersects (a b : Rect) : Bool :=
  a.xmin ≤ b.xmax && b.xmin ≤ a.xmax && a.ymin ≤ b.ymax && b.ymin ≤ a.ymax

/-! ### flight_areas.py -/

/-- Python str.strip() on a list of characters (leading and trailing
whitespace removed). -/
def pyStrip (cs : List Char) : List Char :=
  ((cs.dropWhile Char.isWhitespace).reverse.dropWhile Char.isWhitespace).reverse

/-- Python str.strip() on a string. -/
def pyStripStr (s : String) : String :=
  String.mk (pyStrip s.data)

/-- The character class kept unchanged by safe_layer_name:
ch.isalnum() or ch in (" ", "-", "_"). -/
def keepChar (c : Char) : Bool :=
  c.isAlphanum || c == ' ' || c == '-' || c == '_'

/-- The sanitized core of safe_layer_name before the empty-fallback and the
truncation: join with underscores substituted, strip, then replace spaces
with underscores (flight_areas.py lines 35-36). -/
def sanitizedCore (s : String) : List Char :=
  (pyStrip (s.data.map (fun ch => if keepChar ch then ch else '_'))).map
    (fun ch => if ch == ' ' then '_' else ch)

/-- safe_layer_name of flight_areas.py (lines 33-38): sanitize a flight
identifier into a filesystem-safe layer name, defaulting to "flight" when
the sanitized result is empty and truncating to 200 characters. -/
def safe_layer_name (s : String) : String :=
  String.mk ((if (sanitizedCore s).isEmpty then "flight".data
    else sanitizedCore s).take 200)

/-- One flight polygon row of the poly_gdf: a geometry (None models a null
geometry) and the value of the FlightID field (None models a missing
value). -/
structure FlightPoly where
  geom : Option Rect
  flightVal : Option String
deriving DecidableEq, Repr

/-- One grid-tile row of the grid_gdf: the row's original attributes are
abbreviated to one identifying string, plus the tile geometry. -/
structure GridTile where
  tileId : String
  geom : Option Rect
deriving DecidableEq, Repr

/-- One record of the assignment output: the original tile row plus the
poly_fid, poly_FlightID and poly_overlap_area attributes added by
assign_tiles_to_flights (lines 84-89). -/
structure Assignment where
  tile : GridTile
  poly_fid : Nat
  poly_FlightID : String
  poly_overlap_area : Int
deriving DecidableEq, Repr

/-- An entry of the spatial index together with the poly_geoms / poly_rows
dictionaries of assign_tiles_to_flights: (row position, geometry, FlightID
value). -/
abbrev PolyEntry : Type := Nat × Rect × Option String

/-- Building the spatial index (lines 48-57): enumerate the polygon rows,
skipping rows whose geometry is null or empty; the index enumerates entries
in insertion order. -/
def polyEntriesAux (i : Nat) : List FlightPoly → List PolyEntry
  | [] => []
  | p :: rest =>
    match p.geom with
    | none => polyEntriesAux (i + 1) rest
    | some g =>
      if g.isEmptyRect then polyEntriesAux (i + 1) rest
      else (i, g, p.flightVal) :: polyEntriesAux (i + 1) rest

/-- The spatial index contents for a polygon table. -/
def polyEntries (polys : List FlightPoly) : List PolyEntry :=
  polyEntriesAux 0 polys

/-- The rtree query list(idx.intersection(g.bounds)) (line 64): all indexed
entries whose bounding box intersects the tile's bounding box, in insertion
order. -/
def candidatesFor (entries : List PolyEntry) (g : Rect) : List PolyEntry :=
  entries.filter (fun e => g.bboxIntersects e.2.1)

/-- The best-candidate loop of assign_tiles_to_flights (lines 65-77):
running best polygon id and best area, starting from (None, 0.0); a
candidate replaces the running best only when its intersection area is
strictly greater. -/
def bestLoop (g : Rect) (best : Option Nat × Int) : List PolyEntry → Option Nat × Int
  | [] => best
  | e :: rest =>
    if (g.inter e.2.1).isEmptyRect then bestLoop g best rest
    else if best.2 < (g.inter e.2.1).area then bestLoop g (some e.1, (g.inter e.2.1).area) rest
    else bestLoop g best rest

/-- Dictionary lookup poly_rows[best_pid] (line 80), returning the geometry
and FlightID value stored for that polygon id. -/
def polyRowLookup (entries : List PolyEntry) (pid : Nat) : Option (Rect × Option String) :=
  (entries.find? (fun e => e.1 == pid)).map (fun e => e.2)

/-- The FlightID disqualification test of line 82:
flight_val is None or (isinstance(flight_val, str) and flight_val.strip() == ""). -/
def emptyFlightVal : Option String → Bool
  | none => true
  | some v => pyStripStr v == ""

/-- The body of the per-tile loop of assign_tiles_to_flights (lines 60-89):
skip null/empty tile geometries, find the candidate with the largest
positive intersection area (first encountered wins ties), then drop the
tile when the winning polygon's FlightID is missing or blank; otherwise
produce the assignment record. -/
def assignOne (entries : List PolyEntry) (t : GridTile) : Option Assignment :=
  match t.geom with
  | none => none
  | some g =>
    if g.isEmptyRect then none
    else
      match bestLoop g (none, 0) (candidatesFor entries g) with
      | (none, _) => none
      | (some pid, a) =>
        match polyRowLookup entries pid with
        | none => none
        | some (_, fv) =>
          match fv with
          | none => none
          | some v => if pyStripStr v == "" then none else some ⟨t, pid, v, a⟩

/-- assign_tiles_to_flights (lines 40-95).  The CRS reconciliation of lines
44-45 is I/O-free coordinate bookkeeping and is abstracted: both inputs are
taken to be in the common CRS already.  Raises (returns .error) when no
tile at all was assigned. -/
def assign_tiles_to_flights (grid : List GridTile) (polys : List FlightPoly) :
    Except String (List Assignment) :=
  if (grid.filterMap (assignOne (polyEntries polys))).isEmpty then
    Except.error "No tiles assigned - check polygon field values and CRS."
  else
    Except.ok (grid.filterMap (assignOne (polyEntries polys)))

/-! ### ndvi_extraction.py and parallel_ndviExtraction.py: discovery -/

/-- Strict code-point lexicographic comparison of character lists: Python's
string < on the underlying code points. -/
def strLtChars : List Char → List Char → Bool
  | [], [] => false
  | [], _ :: _ => true
  | _ :: _, [] => false
  | a :: as, b :: bs =>
    if a.toNat < b.toNat then true
    else if b.toNat < a.toNat then false
    else strLtChars as bs

/-- Python's string comparison a <= b (code-point lexicographic), the order
sorted() uses on the names of the children of one directory. -/
def pyStrLe (a b : String) : Bool :=
  !(strLtChars b.data a.data)

/-- The total preorder sorted() sorts strings by. -/
def strOrder : String → String → Prop :=
  fun a b => pyStrLe a b = true

instance : DecidableRel strOrder := by
  unfold strOrder
  infer_instance

/-- Numeric value of a digit string, as Python's int() reads it (leading
zeros allowed). -/
def digitsVal (cs : List Char) : Nat :=
  cs.foldl (fun acc c => acc * 10 + (c.toNat - '0'.toNat)) 0

/-- FLIGHT_FOLDER_RE.match: the folder name matches ^F(\d+)$
case-insensitively, and the captured digits are read as an int. -/
def parseFlightFolder (name : String) : Option Nat :=
  match name.data with
  | [] => none
  | c :: rest =>
    if (c == 'F' || c == 'f') && !rest.isEmpty && rest.all Char.isDigit then
      some (digitsVal rest)
    else none

/-- Ordered-dict insertion out[n] = child: an existing key keeps its
position and gets the new value, a new key is appended. -/
def dictInsert (d : List (Nat × String)) (k : Nat) (v : String) : List (Nat × String) :=
  if d.any (fun p => p.1 == k) then
    d.map (fun p => if p.1 == k then (k, v) else p)
  else d ++ [(k, v)]

/-- list_flight_folders (ndvi_extraction.py lines 50-59 and
parallel_ndviExtraction.py lines 39-46): iterate the subdirectory names in
sorted order and record each F<digits> match in an insertion-ordered dict
flight_num -> folder.  The input is the list of subdirectory names of the
root folder. -/
def list_flight_folders (children : List String) : List (Nat × String) :=
  (List.insertionSort strOrder children).foldl
    (fun d name =>
      match parseFlightFolder name with
      | some n => dictInsert d n name
      | none => d)
    []

/-- The order in which main of ndvi_extraction.py (lines 205-213) visits the
flights: the key order of the dict returned by list_flight_folders. -/
def flightOrder (children : List String) : List Nat :=
  (list_flight_folders children).map Prod.fst

/-- The F-folder matches among the root's children, taken in sorted name
order: (flight number, folder name) pairs. -/
def sortedFlightMatches (children : List String) : List (Nat × String) :=
  (List.insertionSort strOrder children).filterMap
    (fun nm => (parseFlightFolder nm).map (fun n => (n, nm)))

/-- Equality of Except values is decidable componentwise. -/
instance {ε α : Type} [DecidableEq ε] [DecidableEq α] : DecidableEq (Except ε α) := fun a b =>
  match a, b with
  | Except.error e₁, Except.error e₂ =>
    if h : e₁ = e₂ then isTrue (by rw [h])
    else isFalse (by intro hh; injection hh; exact h ‹_›)
  | Except.error _, Except.ok _ => isFalse (by intro hh; cases hh)
  | Except.ok _, Except.error _ => isFalse (by intro hh; cases hh)
  | Except.ok v₁, Except.ok v₂ =>
    if h : v₁ = v₂ then isTrue (by rw [h])
    else isFalse (by intro hh; injection hh; exact h ‹_›)

/-- Per-tile result of one zonal_stats call for one tile: the mean, std and
count statistics (None models a null statistic value). -/
structure ZRow where
  meanV : Option Int
  stdV : Option Int
  countV : Option Int
deriving DecidableEq, Repr

/-- One dated subfolder of a flight folder: its name, whether it contains
the raster file NDVI.data.tif, and the outcome of running zonal_stats
against that raster (error = the exception the call raised). -/
structure DateFolder where
  folderName : String
  hasRaster : Bool
  zres : Except String (List ZRow)
deriving DecidableEq, Repr

/-- The total preorder sorted() uses on dated folders: by folder name.
Python's sorted() is a stable sort, and a stable sort with respect to a
total preorder is uniquely determined, so insertion sort models it. -/
def dateFolderOrder : DateFolder → DateFolder → Prop :=
  fun a b => pyStrLe a.folderName b.folderName = true

instance : DecidableRel dateFolderOrder := by
  unfold dateFolderOrder
  infer_instance

/-- find_tifs_in_flight_folder (ndvi_extraction.py lines 62-70): visit the
dated subfolders in sorted name order and keep those containing
NDVI.data.tif. -/
def find_tifs_in_flight_folder (children : List DateFolder) : List DateFolder :=
  (List.insertionSort dateFolderOrder children).filter
    (fun d => d.hasRaster)

/-- sorted(tifs, key=lambda p: p.parent.name) (ndvi_extraction.py line 140,
parallel_ndviExtraction.py line 121): sort the discovered rasters by their
parent folder name. -/
def sortTifs (tifs : List DateFolder) : List DateFolder :=
  List.insertionSort dateFolderOrder tifs

/-! ### Date tokens -/

/-- Word character of Python's re (ASCII part): [a-zA-Z0-9_]. -/
def isWordChar (c : Char) : Bool :=
  c.isAlphanum || c == '_'

/-- re.sub(r"\W+", "_", name): replace every maximal run of non-word
characters by one underscore.  The Bool argument records whether the
previous character belonged to such a run. -/
def subNonWordAux : Bool → List Char → List Char
  | _, [] => []
  | prevNW, c :: rest =>
    if isWordChar c then c :: subNonWordAux false rest
    else if prevNW then subNonWordAux true rest
    else '_' :: subNonWordAux true rest

/-- re.sub(r"\W+", "_", name) on a character list. -/
def subNonWord (cs : List Char) : List Char :=
  subNonWordAux false cs

/-- Attempt of DATE_TOKEN_RE = F\d+_(\d{2}_\d{2}_\d{2}) at the start of the
given character list; since a digit cannot also match the following '_',
the greedy \d+ is the full digit run and no backtracking arises. -/
def matchDateAt : List Char → Option (List Char)
  | 'F' :: rest =>
    let ds := rest.takeWhile Char.isDigit
    if ds.isEmpty then none
    else
      match rest.drop ds.length with
      | '_' :: a :: b :: '_' :: c :: d :: '_' :: e :: f :: _ =>
        if [a, b, c, d, e, f].all Char.isDigit then
          some [a, b, '_', c, d, '_', e, f]
        else none
      | _ => none
  | _ => none

/-- DATE_TOKEN_RE.search: try the pattern at every position, leftmost match
first. -/
def searchDate : List Char → Option (List Char)
  | [] => none
  | c :: rest =>
    match matchDateAt (c :: rest) with
    | some t => some t
    | none => searchDate rest

/-- Date token of a dated folder name (ndvi_extraction.py lines 142-147,
parallel_ndviExtraction.py lines 123-127): the captured date group when
DATE_TOKEN_RE matches, else the folder name with non-word runs replaced by
underscores. -/
def dateTok (parent : String) : String :=
  match searchDate parent.data with
  | some t => String.mk t
  | none => String.mk (subNonWord parent.data)

/-! ### Per-flight table assembly -/

/-- DROP_COUNTS configuration constant (true in both scripts). -/
def DROP_COUNTS : Bool := true

/-- A column of the results DataFrame: its name and its cell values, one
per tile row (None models NaN/None cells; the id column's integer cells are
wrapped in some). -/
abbrev Col : Type := String × List (Option Int)

/-- The three stat columns contributed by one date to the results table.
On success they come from the zonal_stats rows
(pd.DataFrame(zs)[STATS].rename(...)); on failure, from the all-None frame
of the except branch of process_flight (lines 166-168).  nTiles is
len(gdf_proc). -/
def statColsFor (nTiles : Nat) (d : DateFolder) : List Col :=
  let tok := dateTok d.folderName
  match d.zres with
  | Except.ok zs =>
    [("mean_" ++ tok, zs.map (fun z => z.meanV)),
     ("std_" ++ tok, zs.map (fun z => z.stdV)),
     ("count_" ++ tok, zs.map (fun z => z.countV))]
  | Except.error _ =>
    [("mean_" ++ tok, List.replicate nTiles none),
     ("std_" ++ tok, List.replicate nTiles none),
     ("count_" ++ tok, List.replicate nTiles none)]

/-- The date loop of process_flight (ndvi_extraction.py lines 140-175):
every date, failed or not, appends its three stat columns (null-filled on
failure) and its token to processed_dates. -/
def seqLoop (nTiles : Nat) : List Col × List String → List DateFolder → List Col × List String
  | acc, [] => acc
  | (cols, dates), d :: rest =>
    seqLoop nTiles (cols ++ statColsFor nTiles d, dates ++ [dateTok d.folderName]) rest

/-- The date loop of process_flight_worker (parallel_ndviExtraction.py
lines 121-144): the zonal_stats call is not guarded there, so the first
failing date raises out of the loop. -/
def parLoop (nTiles : Nat) : List Col × List String → List DateFolder →
    Except String (List Col × List String)
  | acc, [] => Except.ok acc
  | (cols, dates), d :: rest =>
    match d.zres with
    | Except.error e => Except.error e
    | Except.ok _ =>
      parLoop nTiles (cols ++ statColsFor nTiles d, dates ++ [dateTok d.folderName]) rest

/-- The count-dropping loop (ndvi_extraction.py lines 178-182,
parallel_ndviExtraction.py lines 146-150): for each processed token, if a
count column of that name is present, drop every column of that name. -/
def dropCountCols (dates : List String) (cols : List Col) : List Col :=
  dates.foldl
    (fun acc tok =>
      if acc.any (fun c => c.1 == "count_" ++ tok) then
        acc.filter (fun c => c.1 != "count_" ++ tok)
      else acc)
    cols

/-- The target column order (ndvi_extraction.py lines 185-188): id, then a
mean/std pair per processed date. -/
def orderedColNames (dates : List String) : List String :=
  "id" :: dates.foldl (fun acc tok => acc ++ ["mean_" ++ tok, "std_" ++ tok]) []

/-- Column reordering results_df[cols] after cols is filtered to the
present names (ndvi_extraction.py lines 189-190): pandas selection by a
label list takes, for each listed label, every column carrying it, in
stored order. -/
def selectCols (names : List String) (cols : List Col) : List Col :=
  (names.filter (fun n => cols.any (fun c => c.1 == n))).flatMap
    (fun n => cols.filter (fun c => c.1 == n))

/-- The table finalization shared by both scripts: prepend the id column
made at line 135, optionally drop counts, then reorder. -/
def finalizeTable (ids : List Int) (cols : List Col) (dates : List String) : List Col :=
  selectCols (orderedColNames dates)
    (if DROP_COUNTS then dropCountCols dates (("id", ids.map some) :: cols)
     else ("id", ids.map some) :: cols)

/-- process_flight of ndvi_extraction.py (lines 108-195), from the CSV
writer's point of view: none models the early returns that write no CSV
(no rasters found; the first raster cannot be opened, which is part of the
abstracted raster I/O and is not modelled), some t models the CSV written
with table t.  ids is the id column of the flight's tile table. -/
def process_flight (ids : List Int) (tifs : List DateFolder) :
    Option (List Col) :=
  if tifs.isEmpty then none
  else
    some (finalizeTable ids
      (seqLoop ids.length ([], []) (sortTifs tifs)).1
      (seqLoop ids.length ([], []) (sortTifs tifs)).2)

/-- The structured result dict returned by process_flight_worker
(parallel_ndviExtraction.py lines 98, 102, 162, 166).  out_csv is the
written CSV content (none when no file was written). -/
structure WorkerResult where
  flight_num : Nat
  status : String
  message : String
  out_csv : Option (List Col)
  n_dates : Nat
deriving DecidableEq, Repr

/-- process_flight_worker (parallel_ndviExtraction.py lines 87-166).
gdfIds is the id column of the flight's tile table, none when
read_gpkg_for_flight returned None.  The unguarded zonal_stats exception of
a failing date propagates to the outer try and yields the error dict with
out_csv None and n_dates 0. -/
def process_flight_worker (flightNum : Nat) (gdfIds : Option (List Int))
    (tifs : List DateFolder) : WorkerResult :=
  match gdfIds with
  | none => ⟨flightNum, "skip", "No GPKG for flight", none, 0⟩
  | some ids =>
    if tifs.isEmpty then ⟨flightNum, "skip", "No NDVI.tif", none, 0⟩
    else
      match parLoop ids.length ([], []) (sortTifs tifs) with
      | Except.error e => ⟨flightNum, "error", e, none, 0⟩
      | Except.ok (cols, dates) =>
        ⟨flightNum, "ok", "Saved", some (finalizeTable ids cols dates), dates.length⟩

/-! ### read_gpkg_for_flight: the id column -/

/-- The attribute table of a flight's GeoPackage as read_gpkg_for_flight
sees it: the id column when one exists, and the number of rows. -/
structure TileTable where
  idCol : Option (List Int)
  nRows : Nat
deriving DecidableEq, Repr

/-- Lines 101-104 of ndvi_extraction.py (and 82-84 of
parallel_ndviExtraction.py): when no id column exists,
gdf.reset_index().rename(columns={"index": "id"}) synthesizes one from the
default integer row index 0, 1, 2, ... -/
def ensureIdColumn (t : TileTable) : List Int :=
  match t.idCol with
  | some v => v
  | none => (List.range t.nRows).map Int.ofNat

/-! ### parallel_ndviExtraction.py: pool sizing and the coordinator -/

/-- MAX_WORKERS configuration constant (None in the source). -/
def MAX_WORKERS : Option Nat := none

/-- Lines 181-183 of parallel_ndviExtraction.py:
cpu_count = os.cpu_count() or 1; default_workers = max(1, cpu_count - 1);
workers = MAX_WORKERS if MAX_WORKERS is not None else min(default_workers, n_tasks).
cpuCountOpt models os.cpu_count() returning None. -/
def workerPoolSize (cpuCountOpt : Option Nat) (nTasks : Nat) : Nat :=
  let cpu := match cpuCountOpt with
    | none => 1
    | some k => if k == 0 then 1 else k
  let defaultWorkers := max 1 (cpu - 1)
  match MAX_WORKERS with
  | some w => w
  | none => min defaultWorkers nTasks

/-- The worker-pool size exactly as the specification words it:
min(available-parallelism − 1, number of flights).  Kept separate from the
source-derived workerPoolSize so the two can be compared. -/
def specWorkerPoolSize (cpuCount : Nat) (nFlights : Nat) : Nat :=
  min (cpuCount - 1) nFlights

/-- The coordinator's replacement result when future.result() raises
(parallel_ndviExtraction.py lines 194-196). -/
def crashResult (n : Nat) (e : String) : WorkerResult :=
  ⟨n, "error", e, none, 0⟩

/-- One submitted task paired with the behaviour of its worker process:
ok r when future.result() returns the worker's dict r, error e when it
raises with message e. -/
abbrev TaskOutcome : Type := Nat × Except String WorkerResult

/-- The as_completed collection loop (lines 190-197): results are appended
in completion order; a future whose result() raises contributes the
coordinator's error dict instead. -/
def collectResults (completed : List TaskOutcome) : List WorkerResult :=
  completed.map (fun t =>
    match t.2 with
    | Except.ok r => r
    | Except.error e => crashResult t.1 e)

/-- The total preorder the final summary sorts results by: the flight
number (sorted(results, key=lambda x: x.get("flight_num", 0))). -/
def resultOrder : WorkerResult → WorkerResult → Prop :=
  fun a b => a.flight_num ≤ b.flight_num

instance : DecidableRel resultOrder := by
  unfold resultOrder
  infer_instance

/-- The final summary ordering (line 209):
sorted(results, key=lambda x: x.get("flight_num", 0)). -/
def summarize (results : List WorkerResult) : List WorkerResult :=
  List.insertionSort resultOrder results

/-- The result a task contributes to the summary: the worker's own dict, or
the coordinator's crash dict. -/
def taskResult (t : TaskOutcome) : WorkerResult :=
  match t.2 with
  | Except.ok r => r
  | Except.error e => crashResult t.1 e

/-- The character class the specification allows in sanitizer output:
alphanumerics, hyphens and underscores. -/
def goodChar (c : Char) : Bool :=
  c.isAlphanum || c == '-' || c == '_'

/-- The mean column one date contributes to the final table. -/
def meanColOf (nTiles : Nat) (d : DateFolder) : Col :=
  ("mean_" ++ dateTok d.folderName,
    match d.zres with
    | Except.ok zs => zs.map (fun z => z.meanV)
    | Except.error _ => List.replicate nTiles none)

/-- The std column one date contributes to the final table. -/
def stdColOf (nTiles : Nat) (d : DateFolder) : Col :=
  ("std_" ++ dateTok d.folderName,
    match d.zres with
    | Except.ok zs => zs.map (fun z => z.stdV)
    | Except.error _ => List.replicate nTiles none)

/-- The count column one date contributes before the count-drop. -/
def countColOf (nTiles : Nat) (d : DateFolder) : Col :=
  ("count_" ++ dateTok d.folderName,
    match d.zres with
    | Except.ok zs => zs.map (fun z => z.countV)
    | Except.error _ => List.replicate nTiles none)

/-! ## Rectangle geometry facts -/

lemma isEmptyRect_false_iff (r : Rect) :
    r.isEmptyRect = false ↔ (r.xmin < r.xmax ∧ r.ymin < r.ymax) := by
  unfold Rect.isEmptyRect
  rw [Bool.or_eq_false_iff]
  simp only [decide_eq_false_iff_not, not_le]

lemma area_of_isEmpty {r : Rect} (h : r.isEmptyRect = true) : r.area = 0 := by
  unfold Rect.area
  rw [h]
  rfl

lemma area_pos_of_not_empty {r : Rect} (h : r.isEmptyRect = false) : 0 < r.area := by
  unfold Rect.area
  rw [h]
  simp only [Bool.false_eq_true, if_false]
  obtain ⟨h1, h2⟩ := (isEmptyRect_false_iff r).mp h
  exact mul_pos (by omega) (by omega)

lemma area_nonneg (r : Rect) : 0 ≤ r.area := by
  cases h : r.isEmptyRect with
  | true => rw [area_of_isEmpty h]
  | false => exact le_of_lt (area_pos_of_not_empty h)

lemma inter_isEmpty_of_not_bbox {a b : Rect} (h : a.bboxIntersects b = false) :
    (a.inter b).isEmptyRect = true := by
  unfold Rect.bboxIntersects at h
  unfold Rect.inter Rect.isEmptyRect
  simp only [Bool.and_eq_false_iff, decide_eq_false_iff_not, not_le] at h
  rw [Bool.or_eq_true]
  rcases h with ((h1 | h1) | h1) | h1
  · left
    simp only [decide_eq_true_eq]
    omega
  · left
    simp only [decide_eq_true_eq]
    omega
  · right
    simp only [decide_eq_true_eq]
    omega
  · right
    simp only [decide_eq_true_eq]
    omega

lemma area_inter_zero_of_not_bbox {g r : Rect} (h : g.bboxIntersects r = false) :
    (g.inter r).area = 0 :=
  area_of_isEmpty (inter_isEmpty_of_not_bbox h)

/-! ## The best-candidate loop: maximality and first-wins tie-break -/

lemma bestLoop_cons (g : Rect) (best : Option Nat × Int) (e : PolyEntry)
    (rest : List PolyEntry) :
    bestLoop g best (e :: rest)
      = if (g.inter e.2.1).isEmptyRect then bestLoop g best rest
        else if best.2 < (g.inter e.2.1).area then
          bestLoop g (some e.1, (g.inter e.2.1).area) rest
        else bestLoop g best rest := rfl

lemma bestLoop_spec (g : Rect) :
    ∀ (l : List PolyEntry) (ob : Option Nat) (b : Int), 0 ≤ b →
    (bestLoop g (ob, b) l = (ob, b) ∧ ∀ e ∈ l, (g.inter e.2.1).area ≤ b)
    ∨ (∃ l₁ e l₂, l = l₁ ++ e :: l₂
        ∧ bestLoop g (ob, b) l = (some e.1, (g.inter e.2.1).area)
        ∧ b < (g.inter e.2.1).area
        ∧ (∀ e2 ∈ l₁, (g.inter e2.2.1).area < (g.inter e.2.1).area)
        ∧ (∀ e2 ∈ l₂, (g.inter e2.2.1).area ≤ (g.inter e.2.1).area)) := by
  intro l
  induction l with
  | nil =>
    intro ob b _
    left
    exact ⟨rfl, fun e he => absurd he (List.not_mem_nil e)⟩
  | cons e0 rest ih =>
    intro ob b hb
    by_cases hemp : (g.inter e0.2.1).isEmptyRect = true
    · have h0 : (g.inter e0.2.1).area = 0 := area_of_isEmpty hemp
      have hred : bestLoop g (ob, b) (e0 :: rest) = bestLoop g (ob, b) rest := by
        rw [bestLoop_cons, if_pos hemp]
      rcases ih ob b hb with ⟨heq, hall⟩ | ⟨l₁, e, l₂, hsplit, heq, hlt, hl1, hl2⟩
      · left
        refine ⟨by rw [hred, heq], ?_⟩
        intro e2 he2
        rcases List.mem_cons.mp he2 with h | h
        · rw [h, h0]
          exact hb
        · exact hall e2 h
      · right
        refine ⟨e0 :: l₁, e, l₂, by rw [hsplit]; rfl, by rw [hred, heq], hlt, ?_, hl2⟩
        intro e2 he2
        rcases List.mem_cons.mp he2 with h | h
        · rw [h, h0]
          omega
        · exact hl1 e2 h
    · rw [Bool.not_eq_true] at hemp
      by_cases hgt : b < (g.inter e0.2.1).area
      · have hred : bestLoop g (ob, b) (e0 :: rest)
            = bestLoop g (some e0.1, (g.inter e0.2.1).area) rest := by
          rw [bestLoop_cons, hemp]
          simp only [Bool.false_eq_true, if_false]
          rw [if_pos hgt]
        have hpos : 0 ≤ (g.inter e0.2.1).area := area_nonneg _
        rcases ih (some e0.1) ((g.inter e0.2.1).area) hpos with
          ⟨heq, hall⟩ | ⟨l₁, e, l₂, hsplit, heq, hlt, hl1, hl2⟩
        · right
          exact ⟨[], e0, rest, rfl, by rw [hred, heq], hgt,
            fun e2 he2 => absurd he2 (List.not_mem_nil e2), hall⟩
        · right
          refine ⟨e0 :: l₁, e, l₂, by rw [hsplit]; rfl, by rw [hred, heq],
            lt_trans hgt hlt, ?_, hl2⟩
          intro e2 he2
          rcases List.mem_cons.mp he2 with h | h
          · rw [h]
            exact hlt
          · exact hl1 e2 h
      · have hle : (g.inter e0.2.1).area ≤ b := le_of_not_lt hgt
        have hred : bestLoop g (ob, b) (e0 :: rest) = bestLoop g (ob, b) rest := by
          rw [bestLoop_cons, hemp]
          simp only [Bool.false_eq_true, if_false]
          rw [if_neg hgt]
        rcases ih ob b hb with ⟨heq, hall⟩ | ⟨l₁, e, l₂, hsplit, heq, hlt, hl1, hl2⟩
        · left
          refine ⟨by rw [hred, heq], ?_⟩
          intro e2 he2
          rcases List.mem_cons.mp he2 with h | h
          · rw [h]
            exact hle
          · exact hall e2 h
        · right
          refine ⟨e0 :: l₁, e, l₂, by rw [hsplit]; rfl, by rw [hred, heq], hlt, ?_, hl2⟩
          intro e2 he2
          rcases List.mem_cons.mp he2 with h | h
          · rw [h]
            omega
          · exact hl1 e2 h

/-! ## Index entries have strictly increasing row positions -/

lemma polyEntriesAux_ge (i : Nat) (polys : List FlightPoly) :
    ∀ e ∈ polyEntriesAux i polys, i ≤ e.1 := by
  induction polys generalizing i with
  | nil =>
    intro e he
    cases he
  | cons p rest ih =>
    intro e he
    cases hg : p.geom with
    | none =>
      simp only [polyEntriesAux, hg] at he
      exact le_trans (Nat.le_succ i) (ih (i + 1) e he)
    | some g =>
      simp only [polyEntriesAux, hg] at he
      by_cases hge : g.isEmptyRect = true
      · rw [if_pos hge] at he
        exact le_trans (Nat.le_succ i) (ih (i + 1) e he)
      · rw [if_neg hge] at he
        rcases List.mem_cons.mp he with h | h
        · rw [h]
        · exact le_trans (Nat.le_succ i) (ih (i + 1) e h)

lemma polyEntriesAux_pairwise (i : Nat) (polys : List FlightPoly) :
    (polyEntriesAux i polys).Pairwise (fun a b => a.1 < b.1) := by
  induction polys generalizing i with
  | nil => exact List.Pairwise.nil
  | cons p rest ih =>
    cases hg : p.geom with
    | none =>
      simp only [polyEntriesAux, hg]
      exact ih (i + 1)
    | some g =>
      simp only [polyEntriesAux, hg]
      by_cases hge : g.isEmptyRect = true
      · rw [if_pos hge]
        exact ih (i + 1)
      · rw [if_neg hge]
        refine List.Pairwise.cons ?_ (ih (i + 1))
        intro e he
        have := polyEntriesAux_ge (i + 1) rest e he
        omega

lemma polyEntries_pairwise (polys : List FlightPoly) :
    (polyEntries polys).Pairwise (fun a b => a.1 < b.1) :=
  polyEntriesAux_pairwise 0 polys

lemma find?_of_pairwise_fst :
    ∀ {l : List PolyEntry}, l.Pairwise (fun a b => a.1 < b.1) →
    ∀ {e : PolyEntry}, e ∈ l → l.find? (fun x => x.1 == e.1) = some e := by
  intro l
  induction l with
  | nil =>
    intro _ e he
    cases he
  | cons h0 rest ih =>
    intro hp e he
    rw [List.pairwise_cons] at hp
    obtain ⟨hlt, hrest⟩ := hp
    rcases List.mem_cons.mp he with h | h
    · rw [h]
      apply List.find?_cons_of_pos
      exact beq_self_eq_true h0.1
    · have hne2 : (h0.1 == e.1) = false := by
        have h3 := hlt e h
        rw [beq_eq_false_iff_ne]
        omega
      have hstep : List.find? (fun x => x.1 == e.1) (h0 :: rest)
          = List.find? (fun x => x.1 == e.1) rest := by
        apply List.find?_cons_of_neg
        show ¬(h0.1 == e.1) = true
        rw [hne2]
        exact Bool.false_ne_true
      rw [hstep]
      exact ih hrest h

/-! ## Per-tile assignment characterization -/

lemma candidatesFor_subset {entries : List PolyEntry} {g : Rect} {e : PolyEntry}
    (h : e ∈ candidatesFor entries g) : e ∈ entries :=
  List.mem_of_mem_filter h

lemma assignOne_red (entries : List PolyEntry) (t : GridTile) (g : Rect)
    (hg : t.geom = some g) (hge : g.isEmptyRect = false) :
    assignOne entries t
      = (match bestLoop g (none, 0) (candidatesFor entries g) with
         | (none, _) => none
         | (some pid, a) =>
           match polyRowLookup entries pid with
           | none => none
           | some (_, fv) =>
             match fv with
             | none => none
             | some v =>
               if pyStripStr v == "" then none
               else some (⟨t, pid, v, a⟩ : Assignment)) := by
  simp only [assignOne, hg]
  rw [hge, if_neg Bool.false_ne_true]

lemma assignOne_spec (entries : List PolyEntry)
    (hpw : entries.Pairwise (fun a b => a.1 < b.1))
    (t : GridTile) (g : Rect) (hg : t.geom = some g) (hge : g.isEmptyRect = false) :
    ((∀ e ∈ candidatesFor entries g, (g.inter e.2.1).area ≤ 0)
      ∧ assignOne entries t = none)
    ∨ (∃ l₁ e l₂, candidatesFor entries g = l₁ ++ e :: l₂
        ∧ 0 < (g.inter e.2.1).area
        ∧ (∀ e2 ∈ entries, (g.inter e2.2.1).area ≤ (g.inter e.2.1).area)
        ∧ (∀ e2 ∈ l₁, (g.inter e2.2.1).area < (g.inter e.2.1).area)
        ∧ (e.2.2 = none → assignOne entries t = none)
        ∧ (∀ v, e.2.2 = some v → pyStripStr v = "" → assignOne entries t = none)
        ∧ (∀ v, e.2.2 = some v → pyStripStr v ≠ "" →
            assignOne entries t = some ⟨t, e.1, v, (g.inter e.2.1).area⟩)) := by
  rcases bestLoop_spec g (candidatesFor entries g) none 0 le_rfl with
    ⟨heq, hall⟩ | ⟨l₁, e, l₂, hsplit, heq, hlt, hl1, hl2⟩
  · left
    refine ⟨hall, ?_⟩
    rw [assignOne_red entries t g hg hge, heq]
  · right
    have hmem : e ∈ candidatesFor entries g := by
      rw [hsplit]
      exact List.mem_append.mpr (Or.inr (List.mem_cons_self e l₂))
    have hment : e ∈ entries := candidatesFor_subset hmem
    have hlook : polyRowLookup entries e.1 = some e.2 := by
      unfold polyRowLookup
      rw [find?_of_pairwise_fst hpw hment]
      rfl
    have hred : assignOne entries t
        = (match e.2.2 with
           | none => none
           | some v =>
             if pyStripStr v == "" then none
             else some ⟨t, e.1, v, (g.inter e.2.1).area⟩) := by
      rw [assignOne_red entries t g hg hge, heq]
      show (match polyRowLookup entries e.1 with
        | none => none
        | some (_, fv) =>
          match fv with
          | none => none
          | some v =>
            if pyStripStr v == "" then none
            else some (⟨t, e.1, v, (g.inter e.2.1).area⟩ : Assignment)) = _
      rw [hlook]
    refine ⟨l₁, e, l₂, hsplit, hlt, ?_, hl1, ?_, ?_, ?_⟩
    · intro e2 he2
      by_cases hbb : g.bboxIntersects e2.2.1 = true
      · have he2c : e2 ∈ candidatesFor entries g := List.mem_filter.mpr ⟨he2, hbb⟩
        rw [hsplit] at he2c
        rcases List.mem_append.mp he2c with h | h
        · exact le_of_lt (hl1 e2 h)
        · rcases List.mem_cons.mp h with h2 | h2
          · rw [h2]
          · exact hl2 e2 h2
      · rw [Bool.not_eq_true] at hbb
        rw [area_inter_zero_of_not_bbox hbb]
        exact le_of_lt hlt
    · intro hfv
      rw [hred, hfv]
    · intro v hfv hstrip
      rw [hred, hfv]
      show (if (pyStripStr v == "") = true then none
        else some (⟨t, e.1, v, (g.inter e.2.1).area⟩ : Assignment)) = none
      rw [if_pos (by rw [hstrip]; exact beq_self_eq_true "")]
    · intro v hfv hstrip
      rw [hred, hfv]
      show (if (pyStripStr v == "") = true then none
          else some (⟨t, e.1, v, (g.inter e.2.1).area⟩ : Assignment))
        = some (⟨t, e.1, v, (g.inter e.2.1).area⟩ : Assignment)
      rw [if_neg]
      intro hcontr
      exact hstrip (by simpa using hcontr)

lemma assignOne_some_facts {entries : List PolyEntry} {t : GridTile} {a : Assignment}
    (h : assignOne entries t = some a) :
    a.tile = t ∧ pyStripStr a.poly_FlightID ≠ "" ∧ a.poly_FlightID ≠ "" := by
  cases hg : t.geom with
  | none =>
    simp only [assignOne, hg] at h
    exact Option.noConfusion h
  | some g =>
    cases hge : g.isEmptyRect with
    | true =>
      simp only [assignOne, hg] at h
      rw [hge] at h
      simp at h
    | false =>
      rw [assignOne_red entries t g hg hge] at h
      cases hb : bestLoop g (none, 0) (candidatesFor entries g) with
      | mk ob ar =>
        rw [hb] at h
        cases ob with
        | none => exact Option.noConfusion h
        | some pid =>
          have h2 : (match polyRowLookup entries pid with
              | none => none
              | some (_, fv) =>
                match fv with
                | none => none
                | some v =>
                  if pyStripStr v == "" then none
                  else some (⟨t, pid, v, ar⟩ : Assignment)) = some a := h
          cases hlk : polyRowLookup entries pid with
          | none =>
            rw [hlk] at h2
            exact Option.noConfusion h2
          | some pr =>
            obtain ⟨r0, fv⟩ := pr
            rw [hlk] at h2
            cases fv with
            | none => exact Option.noConfusion h2
            | some v =>
              have h3 : (if (pyStripStr v == "") = true then none
                  else some (⟨t, pid, v, ar⟩ : Assignment)) = some a := h2
              by_cases hc : (pyStripStr v == "") = true
              · rw [if_pos hc] at h3
                exact Option.noConfusion h3
              · rw [if_neg hc] at h3
                injection h3 with h3
                have hstrip : pyStripStr v ≠ "" := by
                  intro hcc
                  apply hc
                  rw [hcc]
                  exact beq_self_eq_true ""
                refine ⟨by rw [← h3], by rw [← h3]; exact hstrip, ?_⟩
                rw [← h3]
                intro hcc
                apply hstrip
                have hcc2 : v = "" := hcc
                rw [hcc2]
                rfl

lemma assignOne_tile {entries : List PolyEntry} {t : GridTile} {a : Assignment}
    (h : assignOne entries t = some a) : a.tile = t :=
  (assignOne_some_facts h).1


lemma filter_count_le_of_filterMap (entries : List PolyEntry) (grid : List GridTile)
    (t0 : GridTile) :
    ((grid.filterMap (assignOne entries)).filter (fun a => a.tile == t0)).length
      ≤ (grid.filter (fun x => x == t0)).length := by
  induction grid with
  | nil => simp
  | cons t ts ih =>
    rw [List.filterMap_cons]
    cases h : assignOne entries t with
    | none =>
      rw [List.filter_cons]
      by_cases ht : (t == t0) = true
      · rw [if_pos ht]
        simp only [List.length_cons]
        omega
      · rw [if_neg ht]
        exact ih
    | some a =>
      have hat : a.tile = t := assignOne_tile h
      rw [List.filter_cons, List.filter_cons]
      by_cases ht : (t == t0) = true
      · have hat2 : (a.tile == t0) = true := by rw [hat]; exact ht
        rw [if_pos ht, if_pos hat2]
        simp only [List.length_cons]
        omega
      · have hat2 : ¬((a.tile == t0) = true) := by rw [hat]; exact ht
        rw [if_neg ht, if_neg hat2]
        exact ih

/-! ## The code-point string order is a total preorder -/

lemma char_eq_of_toNat_eq {a b : Char} (h : a.toNat = b.toNat) : a = b :=
  Char.ext (UInt32.ext h)

lemma strLtChars_asymm : ∀ (x y : List Char),
    strLtChars x y = true → strLtChars y x = false := by
  intro x
  induction x with
  | nil =>
    intro y h
    cases y with
    | nil => simp [strLtChars] at h
    | cons b bs => simp [strLtChars]
  | cons a as ih =>
    intro y h
    cases y with
    | nil => simp [strLtChars] at h
    | cons b bs =>
      rw [strLtChars] at h ⊢
      by_cases h1 : a.toNat < b.toNat
      · rw [if_neg (by omega), if_pos h1]
      · by_cases h2 : b.toNat < a.toNat
        · rw [if_neg h1, if_pos h2] at h
          cases h
        · rw [if_neg h1, if_neg h2] at h
          rw [if_neg h2, if_neg h1]
          exact ih bs h

lemma strLtChars_trans : ∀ (x y z : List Char),
    strLtChars x y = true → strLtChars y z = true → strLtChars x z = true := by
  intro x
  induction x with
  | nil =>
    intro y z hxy hyz
    cases y with
    | nil => simp [strLtChars] at hxy
    | cons b bs =>
      cases z with
      | nil => simp [strLtChars] at hyz
      | cons c cs => simp [strLtChars]
  | cons a as ih =>
    intro y z hxy hyz
    cases y with
    | nil => simp [strLtChars] at hxy
    | cons b bs =>
      cases z with
      | nil => simp [strLtChars] at hyz
      | cons c cs =>
        rw [strLtChars] at hxy hyz ⊢
        by_cases h1 : a.toNat < b.toNat
        · by_cases h2 : b.toNat < c.toNat
          · rw [if_pos (by omega)]
          · by_cases h3 : c.toNat < b.toNat
            · rw [if_neg h2, if_pos h3] at hyz
              cases hyz
            · have hbc : b.toNat = c.toNat := by omega
              rw [if_pos (by omega)]
        · by_cases h1b : b.toNat < a.toNat
          · rw [if_neg h1, if_pos h1b] at hxy
            cases hxy
          · have hab : a.toNat = b.toNat := by omega
            by_cases h2 : b.toNat < c.toNat
            · rw [if_pos (by omega)]
            · by_cases h3 : c.toNat < b.toNat
              · rw [if_neg h2, if_pos h3] at hyz
                cases hyz
              · have hbc : b.toNat = c.toNat := by omega
                rw [if_neg h1, if_neg h1b] at hxy
                rw [if_neg h2, if_neg h3] at hyz
                rw [if_neg (by omega), if_neg (by omega)]
                exact ih bs cs hxy hyz

lemma strLtChars_eq_of_not : ∀ (x y : List Char),
    strLtChars x y = false → strLtChars y x = false → x = y := by
  intro x
  induction x with
  | nil =>
    intro y hxy _
    cases y with
    | nil => rfl
    | cons b bs => simp [strLtChars] at hxy
  | cons a as ih =>
    intro y hxy hyx
    cases y with
    | nil => simp [strLtChars] at hyx
    | cons b bs =>
      rw [strLtChars] at hxy hyx
      by_cases h1 : a.toNat < b.toNat
      · rw [if_pos h1] at hxy
        cases hxy
      · by_cases h2 : b.toNat < a.toNat
        · rw [if_pos h2] at hyx
          cases hyx
        · rw [if_neg h1, if_neg h2] at hxy
          rw [if_neg h2, if_neg h1] at hyx
          have hab : a = b := char_eq_of_toNat_eq (by omega)
          rw [hab, ih bs hxy hyx]

instance : IsTotal String strOrder := by
  constructor
  intro a b
  unfold strOrder pyStrLe
  by_cases h : strLtChars b.data a.data = true
  · right
    rw [strLtChars_asymm _ _ h]
    rfl
  · left
    rw [Bool.not_eq_true] at h
    rw [h]
    rfl

instance : IsTrans String strOrder := by
  constructor
  intro a b c hab hbc
  unfold strOrder pyStrLe at hab hbc ⊢
  rw [Bool.not_eq_true'] at hab hbc ⊢
  by_cases hca : strLtChars c.data a.data = true
  · exfalso
    by_cases hab2 : strLtChars a.data b.data = true
    · have h3 := strLtChars_trans _ _ _ hca hab2
      rw [h3] at hbc
      cases hbc
    · rw [Bool.not_eq_true] at hab2
      have heq : a.data = b.data := strLtChars_eq_of_not _ _ hab2 hab
      rw [heq] at hca
      rw [hca] at hbc
      cases hbc
  · rw [Bool.not_eq_true] at hca
    exact hca

instance : IsTotal DateFolder dateFolderOrder := by
  constructor
  intro a b
  exact total_of strOrder a.folderName b.folderName

instance : IsTrans DateFolder dateFolderOrder := by
  constructor
  intro a b c hab hbc
  exact IsTrans.trans (r := strOrder) a.folderName b.folderName c.folderName hab hbc

instance : IsTotal WorkerResult resultOrder := by
  constructor
  intro a b
  exact Nat.le_total a.flight_num b.flight_num

instance : IsTrans WorkerResult resultOrder := by
  constructor
  intro a b c hab hbc
  exact Nat.le_trans hab hbc

/-! ## General list helpers -/

lemma dropWhile_eq_self_of_not {α : Type} {p : α → Bool} {l : List α}
    (h : ∀ c ∈ l, p c = false) : l.dropWhile p = l := by
  cases l with
  | nil => rfl
  | cons c rest => simp [List.dropWhile_cons, h c (by simp)]

lemma map_eq_self_of {α : Type} {f : α → α} {l : List α}
    (h : ∀ c ∈ l, f c = c) : l.map f = l := by
  induction l with
  | nil => rfl
  | cons c rest ih =>
    simp only [List.map_cons, h c (by simp)]
    rw [ih (fun x hx => h x (by simp [hx]))]

/-! ## C3: the sanitizer safe_layer_name -/

lemma pyStrip_eq_self {l : List Char} (h : ∀ c ∈ l, c.isWhitespace = false) :
    pyStrip l = l := by
  unfold pyStrip
  rw [dropWhile_eq_self_of_not h, dropWhile_eq_self_of_not, List.reverse_reverse]
  intro c hc
  exact h c (List.mem_reverse.mp hc)

lemma mem_of_mem_pyStrip {c : Char} {l : List Char} (h : c ∈ pyStrip l) : c ∈ l := by
  unfold pyStrip at h
  rw [List.mem_reverse] at h
  have h2 := (List.dropWhile_sublist (l := (l.dropWhile Char.isWhitespace).reverse)
    Char.isWhitespace).mem h
  rw [List.mem_reverse] at h2
  exact (List.dropWhile_sublist Char.isWhitespace).mem h2

lemma not_ws_of_good {c : Char} (h : goodChar c = true) : c.isWhitespace = false := by
  cases hw : c.isWhitespace with
  | false => rfl
  | true =>
    exfalso
    have h4 : ((c = ' ' ∨ c = '\t') ∨ c = '\x0d') ∨ c = '\n' := by
      simpa [Char.isWhitespace, decide_eq_true_eq] using hw
    rcases h4 with ((h1 | h1) | h1) | h1 <;> subst h1 <;> revert h <;> decide

lemma not_space_of_good {c : Char} (h : goodChar c = true) : (c == ' ') = false := by
  cases hs : (c == ' ') with
  | false => rfl
  | true =>
    exfalso
    have h1 : c = ' ' := by simpa using hs
    subst h1
    revert h
    decide

lemma keep_of_good {c : Char} (h : goodChar c = true) : keepChar c = true := by
  unfold goodChar at h
  unfold keepChar
  rcases Bool.or_eq_true_iff.mp h with h1 | h1
  · rcases Bool.or_eq_true_iff.mp h1 with h2 | h2 <;> simp [h2]
  · simp [h1]

lemma good_of_keep_not_space {c : Char} (hk : keepChar c = true)
    (hs : (c == ' ') = false) : goodChar c = true := by
  unfold keepChar at hk
  unfold goodChar
  rcases Bool.or_eq_true_iff.mp hk with h1 | h1
  · rcases Bool.or_eq_true_iff.mp h1 with h2 | h2
    · rcases Bool.or_eq_true_iff.mp h2 with h3 | h3
      · simp [h3]
      · rw [h3] at hs; cases hs
    · simp [h2]
  · simp [h1]

lemma sanitizedCore_chars_good (s : String) :
    ∀ c ∈ sanitizedCore s, goodChar c = true := by
  intro c hc
  unfold sanitizedCore at hc
  rcases List.mem_map.mp hc with ⟨ch, hch, hrep⟩
  have hj : ∀ x ∈ s.data.map (fun ch => if keepChar ch then ch else '_'),
      keepChar x = true := by
    intro x hx
    rcases List.mem_map.mp hx with ⟨c0, _, hc0⟩
    subst hc0
    by_cases hk : keepChar c0 = true
    · rw [if_pos hk]; exact hk
    · rw [if_neg hk]; decide
  have hkch : keepChar ch = true := hj ch (mem_of_mem_pyStrip hch)
  subst hrep
  by_cases hsp : (ch == ' ') = true
  · rw [if_pos hsp]; decide
  · rw [if_neg hsp]
    have hsp2 : (ch == ' ') = false := by simpa using hsp
    exact good_of_keep_not_space hkch hsp2

lemma flight_chars_good : ∀ c ∈ ("flight".data : List Char), goodChar c = true := by
  decide

lemma safe_layer_name_chars_good (s : String) :
    ∀ c ∈ (safe_layer_name s).data, goodChar c = true := by
  intro c hc
  have hc2 := (List.take_sublist 200
    (if (sanitizedCore s).isEmpty then "flight".data else sanitizedCore s)).mem hc
  by_cases he : (sanitizedCore s).isEmpty = true
  · rw [if_pos he] at hc2
    exact flight_chars_good c hc2
  · rw [if_neg he] at hc2
    exact sanitizedCore_chars_good s c hc2

lemma safe_layer_name_ne_empty (s : String) : safe_layer_name s ≠ "" := by
  intro h
  have hdata : ((if (sanitizedCore s).isEmpty then "flight".data
      else sanitizedCore s).take 200) = ([] : List Char) := congrArg String.data h
  have hlen := congrArg List.length hdata
  rw [List.length_take, List.length_nil] at hlen
  have hpos : 0 < (if (sanitizedCore s).isEmpty then "flight".data
      else sanitizedCore s).length := by
    by_cases he : (sanitizedCore s).isEmpty = true
    · rw [if_pos he]; decide
    · rw [if_neg he]
      apply List.length_pos.mpr
      intro h0
      rw [h0] at he
      exact he rfl
  have h2 : 0 < 200 ⊓ (if (sanitizedCore s).isEmpty then "flight".data
      else sanitizedCore s).length := lt_min (by norm_num) hpos
  rw [hlen] at h2
  exact Nat.lt_irrefl 0 h2

lemma safe_layer_name_length_le (s : String) : (safe_layer_name s).length ≤ 200 := by
  have : (safe_layer_name s).length = ((if (sanitizedCore s).isEmpty then "flight".data
      else sanitizedCore s).take 200).length := rfl
  rw [this, List.length_take]
  exact Nat.min_le_left _ _

lemma sanitizedCore_of_good {t : String}
    (hg : ∀ c ∈ t.data, goodChar c = true) : sanitizedCore t = t.data := by
  unfold sanitizedCore
  have hjoin : t.data.map (fun ch => if keepChar ch then ch else '_') = t.data :=
    map_eq_self_of (fun c hc => by rw [if_pos (keep_of_good (hg c hc))])
  rw [hjoin]
  rw [pyStrip_eq_self (fun c hc => not_ws_of_good (hg c hc))]
  exact map_eq_self_of (fun c hc => by
    rw [if_neg]
    intro hcontr
    have h3 := not_space_of_good (hg c hc)
    rw [hcontr] at h3
    simp at h3)

lemma safe_layer_name_idem (s : String) :
    safe_layer_name (safe_layer_name s) = safe_layer_name s := by
  have hg := safe_layer_name_chars_good s
  have hne : (safe_layer_name s).data ≠ [] := by
    intro h
    apply safe_layer_name_ne_empty s
    have h1 : safe_layer_name s = String.mk (safe_layer_name s).data := rfl
    rw [h1, h]
  have hlen : (safe_layer_name s).data.length ≤ 200 := safe_layer_name_length_le s
  have hemp : (safe_layer_name s).data.isEmpty = false := by
    cases h : (safe_layer_name s).data with
    | nil => exact absurd h hne
    | cons a l => rfl
  have h1 : safe_layer_name (safe_layer_name s)
      = String.mk ((if (sanitizedCore (safe_layer_name s)).isEmpty then "flight".data
        else sanitizedCore (safe_layer_name s)).take 200) := rfl
  rw [h1, sanitizedCore_of_good hg, hemp, if_neg Bool.false_ne_true,
    List.take_of_length_le hlen]

/-- C3: the flight-identifier sanitization safe_layer_name is total (it is
a function on all of String) and idempotent; every output is a non-empty
string of at most 200 characters containing only alphanumerics, hyphens and
underscores; and when the stripped, underscore-substituted core is empty
the placeholder "flight" is returned. -/
theorem C3_sanitizer_total_idempotent (s : String) :
    safe_layer_name s ≠ ""
    ∧ (safe_layer_name s).length ≤ 200
    ∧ (∀ c ∈ (safe_layer_name s).data, (c.isAlphanum || c == '-' || c == '_') = true)
    ∧ (sanitizedCore s = [] → safe_layer_name s = "flight")
    ∧ safe_layer_name (safe_layer_name s) = safe_layer_name s := by
  refine ⟨safe_layer_name_ne_empty s, safe_layer_name_length_le s,
    safe_layer_name_chars_good s, ?_, safe_layer_name_idem s⟩
  intro h
  unfold safe_layer_name
  rw [h]
  rfl

/-- Witness for C3 at concrete inputs: the all-spaces identifier "   "
sanitizes to the placeholder, and sanitizing "My Flight/12 " is idempotent. -/
theorem C3_witness :
    safe_layer_name "   " = "flight"
    ∧ safe_layer_name (safe_layer_name "My Flight/12 ") = safe_layer_name "My Flight/12 " := by
  constructor
  · exact (C3_sanitizer_total_idempotent "   ").2.2.2.1 (by decide)
  · exact (C3_sanitizer_total_idempotent "My Flight/12 ").2.2.2.2

/-! ## C4: assignment raises exactly when zero tiles are assigned -/

/-- C4: assign_tiles_to_flights signals an error if and only if the
per-tile loop assigned no tile at all; when at least one tile was
assigned, it returns normally, and what it returns is the assigned set
itself (which is then non-empty). -/
theorem C4_error_iff_zero_assigned (grid : List GridTile) (polys : List FlightPoly) :
    ((∃ e, assign_tiles_to_flights grid polys = Except.error e)
      ↔ grid.filterMap (assignOne (polyEntries polys)) = [])
    ∧ (∀ res, assign_tiles_to_flights grid polys = Except.ok res →
        res = grid.filterMap (assignOne (polyEntries polys)) ∧ res ≠ []) := by
  unfold assign_tiles_to_flights
  by_cases h : (grid.filterMap (assignOne (polyEntries polys))).isEmpty = true
  · rw [if_pos h]
    refine ⟨⟨fun _ => List.isEmpty_iff.mp h, fun _ => ⟨_, rfl⟩⟩, ?_⟩
    intro res hres
    cases hres
  · rw [if_neg h]
    constructor
    · constructor
      · intro he
        rcases he with ⟨e, he⟩
        cases he
      · intro hnil
        exact absurd (List.isEmpty_iff.mpr hnil) h
    · intro res hres
      injection hres with hres
      subst hres
      refine ⟨rfl, ?_⟩
      intro hnil
      exact h (List.isEmpty_iff.mpr hnil)

/-- Witness for C4 at a concrete input: a single tile fully covered by a
single identified polygon is assigned, so the function returns normally
with the non-empty assigned set. -/
theorem C4_witness :
    ([(⟨⟨"T", some ⟨0, 0, 1, 1⟩⟩, 0, "A", 1⟩ : Assignment)]) ≠ [] := by
  have h := (C4_error_iff_zero_assigned [⟨"T", some ⟨0, 0, 1, 1⟩⟩]
    [⟨some ⟨0, 0, 1, 1⟩, some "A"⟩]).2
    [⟨⟨"T", some ⟨0, 0, 1, 1⟩⟩, 0, "A", 1⟩] (by rfl)
  exact h.2

/-! ## C9: worker-pool sizing -/

/-- C9 counterexample: with a single-CPU machine and one discovered
flight the code runs min(max(1, 1-1), 1) = 1 worker, while the claim's
formula min(cpu_count - 1, n_flights) gives 0; so the claimed pool size is
wrong for cpu_count = 1. -/
theorem C9_counterexample :
    workerPoolSize (some 1) 1 = 1 ∧ specWorkerPoolSize 1 1 = 0 ∧ (1 : Nat) ≠ 0 := by
  refine ⟨rfl, rfl, by decide⟩

/-- C9 amended: with no explicit MAX_WORKERS the pool size is
min(max(1, cpu_count − 1), n_flights) — the lower clamp to one worker is
what the claim omits.  The claimed formula min(cpu_count − 1, n_flights)
is recovered exactly when cpu_count ≥ 2, and an unavailable cpu count
(os.cpu_count() returning None) behaves like one CPU. -/
theorem C9_pool_size_amended (cpu : Nat) (n : Nat) (hcpu : 0 < cpu) :
    workerPoolSize (some cpu) n = min (max 1 (cpu - 1)) n
    ∧ (2 ≤ cpu → workerPoolSize (some cpu) n = specWorkerPoolSize cpu n)
    ∧ workerPoolSize none n = min 1 n := by
  have hne : (cpu == 0) = false := by
    simp only [beq_eq_false_iff_ne, ne_eq]
    omega
  refine ⟨?_, ?_, rfl⟩
  · unfold workerPoolSize MAX_WORKERS
    simp only [hne, Bool.false_eq_true, if_false]
  · intro h2
    unfold workerPoolSize MAX_WORKERS specWorkerPoolSize
    simp only [hne, Bool.false_eq_true, if_false]
    have : max 1 (cpu - 1) = cpu - 1 := by omega
    rw [this]

/-- Witness for C9's amended theorem at a concrete input: 8 CPUs and 3
flights give a pool of min(max(1,7),3) = 3 workers, matching the spec
formula since 8 ≥ 2. -/
theorem C9_witness :
    workerPoolSize (some 8) 3 = 3 ∧ workerPoolSize (some 8) 3 = specWorkerPoolSize 8 3 := by
  have h := C9_pool_size_amended 8 3 (by decide)
  exact ⟨by rw [h.1]; decide, h.2.1 (by decide)⟩

/-! ## Column-name bookkeeping for the results table -/

lemma mean_ne_count (a b : String) : ("mean_" ++ a) ≠ ("count_" ++ b) := by
  intro h
  have hd := congrArg String.data h
  rw [String.data_append, String.data_append] at hd
  simp at hd

lemma std_ne_count (a b : String) : ("std_" ++ a) ≠ ("count_" ++ b) := by
  intro h
  have hd := congrArg String.data h
  rw [String.data_append, String.data_append] at hd
  simp at hd

lemma mean_ne_std (a b : String) : ("mean_" ++ a) ≠ ("std_" ++ b) := by
  intro h
  have hd := congrArg String.data h
  rw [String.data_append, String.data_append] at hd
  simp at hd

lemma id_ne_mean (b : String) : ("id" : String) ≠ ("mean_" ++ b) := by
  intro h
  have hd := congrArg String.data h
  rw [String.data_append] at hd
  simp at hd

lemma id_ne_std (b : String) : ("id" : String) ≠ ("std_" ++ b) := by
  intro h
  have hd := congrArg String.data h
  rw [String.data_append] at hd
  simp at hd

lemma id_ne_count (b : String) : ("id" : String) ≠ ("count_" ++ b) := by
  intro h
  have hd := congrArg String.data h
  rw [String.data_append] at hd
  simp at hd

lemma mean_inj {a b : String} (h : ("mean_" ++ a) = ("mean_" ++ b)) : a = b := by
  have hd := congrArg String.data h
  rw [String.data_append, String.data_append] at hd
  exact String.ext (List.append_cancel_left hd)

lemma std_inj {a b : String} (h : ("std_" ++ a) = ("std_" ++ b)) : a = b := by
  have hd := congrArg String.data h
  rw [String.data_append, String.data_append] at hd
  exact String.ext (List.append_cancel_left hd)

/-! ## Loop characterizations -/

lemma statColsFor_eq (nTiles : Nat) (d : DateFolder) :
    statColsFor nTiles d = [meanColOf nTiles d, stdColOf nTiles d, countColOf nTiles d] := by
  unfold statColsFor meanColOf stdColOf countColOf
  cases d.zres <;> rfl

lemma seqLoop_eq (nTiles : Nat) (cols : List Col) (dates : List String)
    (l : List DateFolder) :
    seqLoop nTiles (cols, dates) l
      = (cols ++ l.flatMap (statColsFor nTiles),
         dates ++ l.map (fun d => dateTok d.folderName)) := by
  induction l generalizing cols dates with
  | nil => simp [seqLoop]
  | cons d rest ih =>
    rw [seqLoop, ih]
    simp

lemma parLoop_eq_of_all_ok (nTiles : Nat) (cols : List Col) (dates : List String)
    (l : List DateFolder) (h : ∀ d ∈ l, ∃ zs, d.zres = Except.ok zs) :
    parLoop nTiles (cols, dates) l = Except.ok (seqLoop nTiles (cols, dates) l) := by
  induction l generalizing cols dates with
  | nil => rfl
  | cons d rest ih =>
    rcases h d (by simp) with ⟨zs, hzs⟩
    rw [parLoop, seqLoop, hzs]
    exact ih _ _ (fun x hx => h x (by simp [hx]))

lemma parLoop_error_of_mem (nTiles : Nat) (l : List DateFolder)
    (d : DateFolder) (hd : d ∈ l) (e : String) (he : d.zres = Except.error e) :
    ∀ acc : List Col × List String, ∃ e2, parLoop nTiles acc l = Except.error e2 := by
  induction l with
  | nil => cases hd
  | cons d0 rest ih =>
    intro acc
    obtain ⟨cols, dates⟩ := acc
    rcases List.mem_cons.mp hd with h0 | h0
    · subst h0
      rw [parLoop, he]
      exact ⟨e, rfl⟩
    · cases hz : d0.zres with
      | error e0 => rw [parLoop, hz]; exact ⟨e0, rfl⟩
      | ok zs => rw [parLoop, hz]; exact ih h0 _

lemma foldl_append_blocks {α β : Type} (f : α → List β) (l : List α) (acc : List β) :
    l.foldl (fun a x => a ++ f x) acc = acc ++ l.flatMap f := by
  induction l generalizing acc with
  | nil => simp
  | cons x rest ih =>
    rw [List.foldl_cons, ih, List.flatMap_cons, List.append_assoc]

lemma orderedColNames_eq (dates : List String) :
    orderedColNames dates
      = "id" :: dates.flatMap (fun tok => ["mean_" ++ tok, "std_" ++ tok]) := by
  unfold orderedColNames
  rw [foldl_append_blocks (fun tok => ["mean_" ++ tok, "std_" ++ tok]) dates []]
  rfl

/-! ## The count-drop as one filter -/

lemma dropCountCols_eq_filter (dates : List String) (cols : List Col) :
    dropCountCols dates cols
      = cols.filter (fun c => !(dates.any (fun tok => c.1 == "count_" ++ tok))) := by
  induction dates generalizing cols with
  | nil =>
    unfold dropCountCols
    rw [List.foldl_nil]
    symm
    rw [List.filter_eq_self]
    intro a _
    simp
  | cons t ts ih =>
    have hstep : (if cols.any (fun c => c.1 == "count_" ++ t) then
        cols.filter (fun c => c.1 != "count_" ++ t) else cols)
        = cols.filter (fun c => c.1 != "count_" ++ t) := by
      by_cases h : cols.any (fun c => c.1 == "count_" ++ t) = true
      · rw [if_pos h]
      · rw [if_neg h]
        symm
        rw [List.filter_eq_self]
        intro a ha
        have h2 : (a.1 == "count_" ++ t) = false := by
          rcases Bool.eq_false_or_eq_true (a.1 == "count_" ++ t) with h3 | h3
          · exact absurd (List.any_eq_true.mpr ⟨a, ha, h3⟩) h
          · exact h3
        simp [bne, h2]
    have hfold : dropCountCols (t :: ts) cols
        = dropCountCols ts (cols.filter (fun c => c.1 != "count_" ++ t)) := by
      unfold dropCountCols
      rw [List.foldl_cons, hstep]
    rw [hfold, ih, List.filter_filter]
    apply List.filter_congr
    intro c _
    simp only [List.any_cons, Bool.not_or, bne]
    rw [Bool.and_comm]

/-! ## Column selection -/

lemma flatMap_congr_mem {α β : Type} {l : List α} {f g : α → List β}
    (h : ∀ a ∈ l, f a = g a) : l.flatMap f = l.flatMap g := by
  induction l with
  | nil => rfl
  | cons x rest ih =>
    rw [List.flatMap_cons, List.flatMap_cons, h x (by simp),
      ih (fun a ha => h a (by simp [ha]))]

lemma selectCols_eq_self {cols : List Col} (hnodup : (cols.map Prod.fst).Nodup) :
    selectCols (cols.map Prod.fst) cols = cols := by
  unfold selectCols
  have hfil : (cols.map Prod.fst).filter (fun n => cols.any (fun c => c.1 == n))
      = cols.map Prod.fst := by
    rw [List.filter_eq_self]
    intro n hn
    rcases List.mem_map.mp hn with ⟨c, hc, hcn⟩
    exact List.any_eq_true.mpr ⟨c, hc, by rw [hcn]; exact beq_self_eq_true n⟩
  rw [hfil]
  clear hfil
  induction cols with
  | nil => rfl
  | cons c rest ih =>
    rw [List.map_cons, List.nodup_cons] at hnodup
    obtain ⟨hnotin, hrest⟩ := hnodup
    rw [List.map_cons, List.flatMap_cons]
    have h1 : (c :: rest).filter (fun x => x.1 == c.1) = [c] := by
      rw [List.filter_cons_of_pos (by simp)]
      congr 1
      rw [List.filter_eq_nil_iff]
      intro x hx hcontr
      apply hnotin
      have : x.1 = c.1 := by simpa using hcontr
      rw [← this]
      exact List.mem_map.mpr ⟨x, hx, rfl⟩
    have h2 : (rest.map Prod.fst).flatMap (fun n => (c :: rest).filter (fun x => x.1 == n))
        = (rest.map Prod.fst).flatMap (fun n => rest.filter (fun x => x.1 == n)) := by
      apply flatMap_congr_mem
      intro n hn
      rw [List.filter_cons_of_neg]
      intro hcontr
      apply hnotin
      have : c.1 = n := by simpa using hcontr
      rw [this]
      exact hn
    rw [h1, h2, ih hrest]
    rfl

/-! ## Shape of the finalized table -/

lemma dropCount_on_assembled (ids : List Int) (l : List DateFolder) :
    dropCountCols (l.map (fun d => dateTok d.folderName))
        (("id", ids.map some) :: l.flatMap (statColsFor ids.length))
      = ("id", ids.map some)
          :: l.flatMap (fun d => [meanColOf ids.length d, stdColOf ids.length d]) := by
  rw [dropCountCols_eq_filter]
  set P : Col → Bool := fun c => !((l.map (fun d => dateTok d.folderName)).any
    (fun tok => c.1 == "count_" ++ tok)) with hP
  have hid : P ("id", ids.map some) = true := by
    rw [hP]
    simp only [Bool.not_eq_true']
    rw [List.any_eq_false]
    intro tok _ hcontr
    exact id_ne_count tok (by simpa using hcontr)
  rw [List.filter_cons_of_pos hid, List.filter_flatMap]
  congr 1
  apply flatMap_congr_mem
  intro d hd
  rw [statColsFor_eq]
  have htokmem : dateTok d.folderName ∈ l.map (fun d => dateTok d.folderName) :=
    List.mem_map.mpr ⟨d, hd, rfl⟩
  have hm : P (meanColOf ids.length d) = true := by
    rw [hP]
    simp only [Bool.not_eq_true']
    rw [List.any_eq_false]
    intro tok _ hcontr
    exact mean_ne_count _ tok (by simpa [meanColOf] using hcontr)
  have hs : P (stdColOf ids.length d) = true := by
    rw [hP]
    simp only [Bool.not_eq_true']
    rw [List.any_eq_false]
    intro tok _ hcontr
    exact std_ne_count _ tok (by simpa [stdColOf] using hcontr)
  have hc : P (countColOf ids.length d) = false := by
    rw [hP]
    have hany : ((l.map (fun d => dateTok d.folderName)).any
        (fun tok => (countColOf ids.length d).1 == "count_" ++ tok)) = true := by
      refine List.any_eq_true.mpr ⟨dateTok d.folderName, htokmem, ?_⟩
      show ((countColOf ids.length d).1 == "count_" ++ dateTok d.folderName) = true
      exact beq_self_eq_true ("count_" ++ dateTok d.folderName)
    show (!((l.map (fun d => dateTok d.folderName)).any
      (fun tok => (countColOf ids.length d).1 == "count_" ++ tok))) = false
    rw [hany]
    rfl
  have hc2 : ¬(P (countColOf ids.length d) = true) := by
    rw [hc]
    exact Bool.false_ne_true
  rw [List.filter_cons_of_pos hm, List.filter_cons_of_pos hs,
    List.filter_cons_of_neg hc2]
  rfl

lemma assembled_names (ids : List Int) (l : List DateFolder) (nTiles : Nat) :
    ((("id", ids.map some)
        :: l.flatMap (fun d => [meanColOf nTiles d, stdColOf nTiles d])).map Prod.fst)
      = orderedColNames (l.map (fun d => dateTok d.folderName)) := by
  rw [orderedColNames_eq, List.map_cons]
  congr 1
  rw [List.map_flatMap, List.flatMap_map]
  apply flatMap_congr_mem
  intro d _
  rfl

lemma orderedNames_nodup {toks : List String} (h : toks.Nodup) :
    ("id" :: toks.flatMap (fun t => ["mean_" ++ t, "std_" ++ t])).Nodup := by
  rw [List.nodup_cons]
  constructor
  · intro hmem
    rcases List.mem_flatMap.mp hmem with ⟨t, _, hmem2⟩
    rcases List.mem_cons.mp hmem2 with h1 | h1
    · exact id_ne_mean t h1
    · rcases List.mem_cons.mp h1 with h2 | h2
      · exact id_ne_std t h2
      · cases h2
  · induction toks with
    | nil => exact List.nodup_nil
    | cons t ts ih =>
      rw [List.nodup_cons] at h
      obtain ⟨htnotin, hts⟩ := h
      rw [List.flatMap_cons, List.nodup_append]
      refine ⟨?_, ih hts, ?_⟩
      · rw [List.nodup_cons]
        constructor
        · intro hmem
          rcases List.mem_cons.mp hmem with h1 | h1
          · exact mean_ne_std t t h1
          · cases h1
        · exact List.nodup_cons.mpr ⟨by simp, List.nodup_nil⟩
      · intro x hx hmem
        rcases List.mem_flatMap.mp hmem with ⟨t2, ht2, hmem2⟩
        rcases List.mem_cons.mp hx with h1 | h1
        · subst h1
          rcases List.mem_cons.mp hmem2 with h2 | h2
          · exact htnotin (mean_inj h2 ▸ ht2)
          · rcases List.mem_cons.mp h2 with h3 | h3
            · exact mean_ne_std t t2 h3
            · cases h3
        · rcases List.mem_cons.mp h1 with h2 | h2
          · subst h2
            rcases List.mem_cons.mp hmem2 with h3 | h3
            · exact mean_ne_std t2 t h3.symm
            · rcases List.mem_cons.mp h3 with h4 | h4
              · exact htnotin (std_inj h4 ▸ ht2)
              · cases h4
          · cases h2

lemma mem_sortTifs {d : DateFolder} {tifs : List DateFolder} :
    d ∈ sortTifs tifs ↔ d ∈ tifs := by
  unfold sortTifs
  exact (List.perm_insertionSort dateFolderOrder tifs).mem_iff

lemma length_sortTifs (tifs : List DateFolder) :
    (sortTifs tifs).length = tifs.length := by
  unfold sortTifs
  exact (List.perm_insertionSort dateFolderOrder tifs).length_eq

lemma sortTifs_sorted (tifs : List DateFolder) :
    List.Sorted dateFolderOrder (sortTifs tifs) := by
  unfold sortTifs
  exact List.sorted_insertionSort dateFolderOrder tifs

lemma finalize_shape (ids : List Int) (l : List DateFolder)
    (hnodup : (l.map (fun d => dateTok d.folderName)).Nodup) :
    finalizeTable ids (l.flatMap (statColsFor ids.length))
        (l.map (fun d => dateTok d.folderName))
      = ("id", ids.map some)
          :: l.flatMap (fun d => [meanColOf ids.length d, stdColOf ids.length d]) := by
  unfold finalizeTable DROP_COUNTS
  rw [if_pos rfl, dropCount_on_assembled, ← assembled_names ids l ids.length]
  apply selectCols_eq_self
  rw [assembled_names ids l ids.length, orderedColNames_eq]
  exact orderedNames_nodup hnodup

lemma process_flight_eq (ids : List Int) (tifs : List DateFolder) (hne : tifs ≠ []) :
    process_flight ids tifs
      = some (finalizeTable ids ((sortTifs tifs).flatMap (statColsFor ids.length))
          ((sortTifs tifs).map (fun d => dateTok d.folderName))) := by
  unfold process_flight
  rw [if_neg (fun h => hne (List.isEmpty_iff.mp h)), seqLoop_eq]
  rfl

lemma worker_ok_char (flightNum : Nat) (ids : List Int) (tifs : List DateFolder)
    (hne : tifs ≠ []) (hallok : ∀ d ∈ tifs, ∃ zs, d.zres = Except.ok zs) :
    process_flight_worker flightNum (some ids) tifs
      = ⟨flightNum, "ok", "Saved",
          some (finalizeTable ids ((sortTifs tifs).flatMap (statColsFor ids.length))
            ((sortTifs tifs).map (fun d => dateTok d.folderName))),
          tifs.length⟩ := by
  have hempty : tifs.isEmpty = false := List.isEmpty_eq_false.mpr hne
  show (if tifs.isEmpty then
      (⟨flightNum, "skip", "No NDVI.tif", none, 0⟩ : WorkerResult)
    else
      match parLoop ids.length ([], []) (sortTifs tifs) with
      | Except.error e => ⟨flightNum, "error", e, none, 0⟩
      | Except.ok (cols, dates) =>
        ⟨flightNum, "ok", "Saved", some (finalizeTable ids cols dates), dates.length⟩) = _
  rw [hempty, if_neg Bool.false_ne_true,
    parLoop_eq_of_all_ok _ _ _ _ (fun d hd => hallok d (mem_sortTifs.mp hd)), seqLoop_eq]
  simp only [List.nil_append]
  congr 1
  rw [List.length_map, length_sortTifs]

lemma worker_error_char (flightNum : Nat) (ids : List Int) (tifs : List DateFolder)
    (d : DateFolder) (hd : d ∈ tifs) (e : String) (he : d.zres = Except.error e) :
    (process_flight_worker flightNum (some ids) tifs).status = "error"
    ∧ (process_flight_worker flightNum (some ids) tifs).out_csv = none
    ∧ (process_flight_worker flightNum (some ids) tifs).n_dates = 0 := by
  have hne : tifs ≠ [] := by
    intro h0
    rw [h0] at hd
    cases hd
  have hempty : tifs.isEmpty = false := List.isEmpty_eq_false.mpr hne
  obtain ⟨e2, he2⟩ := parLoop_error_of_mem ids.length (sortTifs tifs) d
    (mem_sortTifs.mpr hd) e he ([], [])
  have hrun : process_flight_worker flightNum (some ids) tifs
      = ⟨flightNum, "error", e2, none, 0⟩ := by
    show (if tifs.isEmpty then
        (⟨flightNum, "skip", "No NDVI.tif", none, 0⟩ : WorkerResult)
      else
        match parLoop ids.length ([], []) (sortTifs tifs) with
        | Except.error e => ⟨flightNum, "error", e, none, 0⟩
        | Except.ok (cols, dates) =>
          ⟨flightNum, "ok", "Saved", some (finalizeTable ids cols dates), dates.length⟩) = _
    rw [hempty, if_neg Bool.false_ne_true, he2]
  rw [hrun]
  exact ⟨rfl, rfl, rfl⟩

/-! ## C2: per-raster failure tolerance -/

/-- C2 counterexample: a flight with one bad raster date and one good one.
The claim says the per-flight extraction must, in both scripts, emit a row
of nulls for the failed date, keep processing and still write the CSV; the
sequential process_flight does so, but the parallel process_flight_worker
returns an error result with no CSV written and no dates recorded. -/
theorem C2_counterexample :
    (process_flight_worker 1 (some [0])
      [⟨"F1_24_03_28", true, Except.error "unreadable raster"⟩,
       ⟨"F1_24_04_01", true, Except.ok [⟨some 5, some 1, some 9⟩]⟩]).out_csv = none
    ∧ (process_flight_worker 1 (some [0])
      [⟨"F1_24_03_28", true, Except.error "unreadable raster"⟩,
       ⟨"F1_24_04_01", true, Except.ok [⟨some 5, some 1, some 9⟩]⟩]).status = "error"
    ∧ process_flight [0]
      [⟨"F1_24_03_28", true, Except.error "unreadable raster"⟩,
       ⟨"F1_24_04_01", true, Except.ok [⟨some 5, some 1, some 9⟩]⟩]
      = some [("id", [some 0]), ("mean_24_03_28", [none]), ("std_24_03_28", [none]),
              ("mean_24_04_01", [some 5]), ("std_24_04_01", [some 1])] :=
  ⟨rfl, rfl, rfl⟩

/-- C2 amended: the null-fill-and-continue behaviour holds for the
sequential process_flight only.  There, a failed date contributes all-null
mean/std/count columns, every date (failed ones included) is recorded in
processed order, the CSV is always written, and the final table contains
the null mean/std columns of the failed date.  In the parallel
process_flight_worker a single failing date instead aborts the flight: the
worker returns an error-status result with no CSV written. -/
theorem C2_per_raster_failure_amended (ids : List Int) (tifs : List DateFolder)
    (hnodup : ((sortTifs tifs).map (fun d => dateTok d.folderName)).Nodup) :
    (tifs ≠ [] → ∃ T, process_flight ids tifs = some T)
    ∧ (∀ d ∈ tifs, ∀ e, d.zres = Except.error e →
        statColsFor ids.length d
          = [("mean_" ++ dateTok d.folderName, List.replicate ids.length none),
             ("std_" ++ dateTok d.folderName, List.replicate ids.length none),
             ("count_" ++ dateTok d.folderName, List.replicate ids.length none)])
    ∧ (seqLoop ids.length ([], []) (sortTifs tifs)).2
        = (sortTifs tifs).map (fun d => dateTok d.folderName)
    ∧ (∀ d ∈ tifs, ∀ e, d.zres = Except.error e → ∀ T,
        process_flight ids tifs = some T →
        ("mean_" ++ dateTok d.folderName, List.replicate ids.length none) ∈ T
        ∧ ("std_" ++ dateTok d.folderName, List.replicate ids.length none) ∈ T)
    ∧ (∀ m : Nat, ∀ d ∈ tifs, ∀ e, d.zres = Except.error e →
        (process_flight_worker m (some ids) tifs).status = "error"
        ∧ (process_flight_worker m (some ids) tifs).out_csv = none) := by
  refine ⟨?_, ?_, ?_, ?_, ?_⟩
  · intro hne
    exact ⟨_, process_flight_eq ids tifs hne⟩
  · intro d _ e he
    unfold statColsFor
    rw [he]
  · rw [seqLoop_eq]
    rfl
  · intro d hd e he T hT
    have hne : tifs ≠ [] := by
      intro h0
      rw [h0] at hd
      cases hd
    rw [process_flight_eq ids tifs hne] at hT
    injection hT with hT
    rw [finalize_shape ids (sortTifs tifs) hnodup] at hT
    have hmean : meanColOf ids.length d
        = ("mean_" ++ dateTok d.folderName, List.replicate ids.length none) := by
      unfold meanColOf
      rw [he]
    have hstd : stdColOf ids.length d
        = ("std_" ++ dateTok d.folderName, List.replicate ids.length none) := by
      unfold stdColOf
      rw [he]
    constructor
    · rw [← hT, ← hmean]
      exact List.mem_cons_of_mem _ (List.mem_flatMap.mpr
        ⟨d, mem_sortTifs.mpr hd, by simp⟩)
    · rw [← hT, ← hstd]
      exact List.mem_cons_of_mem _ (List.mem_flatMap.mpr
        ⟨d, mem_sortTifs.mpr hd, by simp⟩)
  · intro m d hd e he
    have h := worker_error_char m ids tifs d hd e he
    exact ⟨h.1, h.2.1⟩

/-- Witness for C2's amended theorem at the concrete flight of the
counterexample: the sequential CSV exists and contains the null mean
column for the failed date, and the worker errors out. -/
theorem C2_witness :
    ∃ T, process_flight [0]
        [⟨"F1_24_03_28", true, Except.error "unreadable raster"⟩,
         ⟨"F1_24_04_01", true, Except.ok [⟨some 5, some 1, some 9⟩]⟩] = some T := by
  exact (C2_per_raster_failure_amended [0]
    [⟨"F1_24_03_28", true, Except.error "unreadable raster"⟩,
     ⟨"F1_24_04_01", true, Except.ok [⟨some 5, some 1, some 9⟩]⟩]
    (by decide)).1 (by decide)

/-! ## C5: shape of the per-flight output table -/

/-- C5: the per-flight output table (both scripts) has one row per tile in
the tile set's iteration order — the id column lists the tile ids in input
order and every column has one cell per tile — and its columns are exactly
the id column followed by one (mean_date, std_date) pair per processed
date, in processed order, with the count columns dropped.  The date tokens
are assumed pairwise distinct (two distinct dated folders of one flight
carry distinct date tokens), and zonal_stats is assumed to return one row
per input geometry. -/
theorem C5_output_table_shape (ids : List Int) (tifs : List DateFolder)
    (hne : tifs ≠ [])
    (hnodup : ((sortTifs tifs).map (fun d => dateTok d.folderName)).Nodup)
    (hlen : ∀ d ∈ tifs, ∀ zs, d.zres = Except.ok zs → zs.length = ids.length) :
    ∃ T, process_flight ids tifs = some T
      ∧ T.map Prod.fst
          = "id" :: ((sortTifs tifs).map (fun d => dateTok d.folderName)).flatMap
              (fun tok => ["mean_" ++ tok, "std_" ++ tok])
      ∧ T.head? = some ("id", ids.map some)
      ∧ (∀ c ∈ T, c.2.length = ids.length)
      ∧ (∀ m : Nat, (∀ d ∈ tifs, ∃ zs, d.zres = Except.ok zs) →
          process_flight_worker m (some ids) tifs
            = ⟨m, "ok", "Saved", some T, tifs.length⟩) := by
  refine ⟨finalizeTable ids ((sortTifs tifs).flatMap (statColsFor ids.length))
    ((sortTifs tifs).map (fun d => dateTok d.folderName)),
    process_flight_eq ids tifs hne, ?_, ?_, ?_, ?_⟩
  · rw [finalize_shape ids (sortTifs tifs) hnodup,
      assembled_names ids (sortTifs tifs) ids.length, orderedColNames_eq]
  · rw [finalize_shape ids (sortTifs tifs) hnodup]
    rfl
  · intro c hc
    rw [finalize_shape ids (sortTifs tifs) hnodup] at hc
    rcases List.mem_cons.mp hc with h1 | h1
    · rw [h1]
      exact List.length_map _ _
    · rcases List.mem_flatMap.mp h1 with ⟨d, hd, hc2⟩
      have hdt : d ∈ tifs := mem_sortTifs.mp hd
      rcases List.mem_cons.mp hc2 with h2 | h2
      · rw [h2]
        unfold meanColOf
        cases hz : d.zres with
        | ok zs =>
          have := hlen d hdt zs hz
          simp [this]
        | error e => simp
      · rcases List.mem_cons.mp h2 with h3 | h3
        · rw [h3]
          unfold stdColOf
          cases hz : d.zres with
          | ok zs =>
            have := hlen d hdt zs hz
            simp [this]
          | error e => simp
        · cases h3
  · intro m hallok
    exact worker_ok_char m ids tifs hne hallok

/-- Witness for C5 at a concrete flight with two dated rasters and two
tiles. -/
theorem C5_witness :
    ∃ T, process_flight [7, 8]
        [⟨"F1_24_04_01", true, Except.ok [⟨some 5, some 1, some 9⟩, ⟨some 6, some 2, some 9⟩]⟩,
         ⟨"F1_24_03_28", true, Except.ok [⟨some 3, some 1, some 9⟩, ⟨some 4, some 2, some 9⟩]⟩]
        = some T
      ∧ T.head? = some ("id", [some 7, some 8]) := by
  obtain ⟨T, h1, _, h3, _, _⟩ := C5_output_table_shape [7, 8]
    [⟨"F1_24_04_01", true, Except.ok [⟨some 5, some 1, some 9⟩, ⟨some 6, some 2, some 9⟩]⟩,
     ⟨"F1_24_03_28", true, Except.ok [⟨some 3, some 1, some 9⟩, ⟨some 4, some 2, some 9⟩]⟩]
    (by decide) (by decide)
    (by
      intro d hd zs hzs
      rcases List.mem_cons.mp hd with h | h
      · subst h
        injection hzs with hzs
        rw [← hzs]
        rfl
      · rcases List.mem_cons.mp h with h2 | h2
        · subst h2
          injection hzs with hzs
          rw [← hzs]
          rfl
        · cases h2)
  exact ⟨T, h1, h3⟩

/-! ## C10: the synthesized id column -/

/-- C10: when the flight's tile table has no id column, reading it
synthesizes one from the integer row index 0, 1, 2, ...; when an id column
exists it is used unchanged; and the (possibly synthesized) id values form
the identifier column of the flight's output time-series table. -/
theorem C10_id_column (t : TileTable) (tifs : List DateFolder)
    (hne : tifs ≠ [])
    (hnodup : ((sortTifs tifs).map (fun d => dateTok d.folderName)).Nodup) :
    (t.idCol = none → ensureIdColumn t = (List.range t.nRows).map Int.ofNat)
    ∧ (∀ v, t.idCol = some v → ensureIdColumn t = v)
    ∧ (∃ T, process_flight (ensureIdColumn t) tifs = some T
        ∧ T.head? = some ("id", (ensureIdColumn t).map some)) := by
  refine ⟨?_, ?_, ?_⟩
  · intro h
    unfold ensureIdColumn
    rw [h]
  · intro v h
    unfold ensureIdColumn
    rw [h]
  · refine ⟨_, process_flight_eq (ensureIdColumn t) tifs hne, ?_⟩
    rw [finalize_shape (ensureIdColumn t) (sortTifs tifs) hnodup]
    rfl

/-! ## C1: largest-overlap assignment -/

/-- C1: for every tile with valid geometry, if some candidate polygon has
strictly positive intersection area with it, the loop selects the first
candidate (in the index's enumeration order) attaining the maximal
intersection area over all indexed polygons; the tile is dropped when the
winner's FlightID is missing or blank, and assigned to the winner
otherwise; a tile none of whose candidates has positive overlap is
dropped.  On a normal return the output is exactly the per-tile loop's
assignments, every assignment carries a non-empty FlightID, and a tile row
occurring once in the grid yields at most one assignment. -/
theorem C1_max_overlap_assignment (grid : List GridTile) (polys : List FlightPoly) :
    (∀ (t : GridTile) (g : Rect), t.geom = some g → g.isEmptyRect = false →
      ((∃ e0 ∈ candidatesFor (polyEntries polys) g, 0 < (g.inter e0.2.1).area) →
        ∃ l₁ e l₂, candidatesFor (polyEntries polys) g = l₁ ++ e :: l₂
          ∧ 0 < (g.inter e.2.1).area
          ∧ (∀ e2 ∈ polyEntries polys, (g.inter e2.2.1).area ≤ (g.inter e.2.1).area)
          ∧ (∀ e2 ∈ l₁, (g.inter e2.2.1).area < (g.inter e.2.1).area)
          ∧ (emptyFlightVal e.2.2 = true → assignOne (polyEntries polys) t = none)
          ∧ (∀ v, e.2.2 = some v → pyStripStr v ≠ "" →
              assignOne (polyEntries polys) t
                = some ⟨t, e.1, v, (g.inter e.2.1).area⟩))
      ∧ ((∀ e0 ∈ candidatesFor (polyEntries polys) g, (g.inter e0.2.1).area ≤ 0) →
          assignOne (polyEntries polys) t = none))
    ∧ (∀ res, assign_tiles_to_flights grid polys = Except.ok res →
        res = grid.filterMap (assignOne (polyEntries polys))
        ∧ (∀ a ∈ res, pyStripStr a.poly_FlightID ≠ "" ∧ a.poly_FlightID ≠ "")
        ∧ (∀ t0 : GridTile, (res.filter (fun a => a.tile == t0)).length
            ≤ (grid.filter (fun x => x == t0)).length)) := by
  constructor
  · intro t g hg hge
    have hspec := assignOne_spec (polyEntries polys) (polyEntries_pairwise polys)
      t g hg hge
    constructor
    · rintro ⟨e0, he0, hpos⟩
      rcases hspec with ⟨hall, _⟩ | ⟨l₁, e, l₂, hsplit, hlt, hmax, hl1, hn, hse, hok⟩
      · exact absurd hpos (by have := hall e0 he0; omega)
      · refine ⟨l₁, e, l₂, hsplit, hlt, hmax, hl1, ?_, hok⟩
        intro hempty
        cases hv : e.2.2 with
        | none => exact hn hv
        | some v =>
          have hbeq : (pyStripStr v == "") = true := by
            unfold emptyFlightVal at hempty
            rw [hv] at hempty
            exact hempty
          exact hse v hv (by simpa using hbeq)
    · intro hall
      rcases hspec with ⟨_, hnone⟩ | ⟨l₁, e, l₂, hsplit, hlt, _, _, _, _, _⟩
      · exact hnone
      · exfalso
        have hmem : e ∈ candidatesFor (polyEntries polys) g := by
          rw [hsplit]
          exact List.mem_append.mpr (Or.inr (List.mem_cons_self e l₂))
        have := hall e hmem
        omega
  · intro res hres
    unfold assign_tiles_to_flights at hres
    by_cases h : (grid.filterMap (assignOne (polyEntries polys))).isEmpty = true
    · rw [if_pos h] at hres
      cases hres
    · rw [if_neg h] at hres
      injection hres with hres
      subst hres
      refine ⟨rfl, ?_, ?_⟩
      · intro a ha
        rcases List.mem_filterMap.mp ha with ⟨t, _, hsome⟩
        exact (assignOne_some_facts hsome).2
      · intro t0
        exact filter_count_le_of_filterMap (polyEntries polys) grid t0

/-- Witness for C1 at a concrete input: one tile fully covered by one
identified polygon is assigned to it with a non-blank FlightID. -/
theorem C1_witness :
    pyStripStr ((⟨⟨"T1", some ⟨0, 0, 2, 2⟩⟩, 0, "A", 4⟩ : Assignment)).poly_FlightID ≠ "" := by
  have h := (C1_max_overlap_assignment [⟨"T1", some ⟨0, 0, 2, 2⟩⟩]
    [⟨some ⟨0, 0, 2, 2⟩, some "A"⟩]).2
    [⟨⟨"T1", some ⟨0, 0, 2, 2⟩⟩, 0, "A", 4⟩] (by rfl)
  exact (h.2.1 _ (List.mem_singleton.mpr rfl)).1

/-! ## C7: which tiles are excluded -/

/-- C7 counterexample: tile T1 overlaps polygon P1 (area 3, blank
FlightID) and polygon P2 (area 2, FlightID "A").  The winner P1 has a
blank FlightID, so T1 is dropped — yet T1's bounding box does intersect
the polygons' boxes and T1 positively matches P2, whose FlightID is not
empty.  So an excluded tile need not have an empty bounding-box
intersection with all polygons nor match only blank-FlightID polygons,
refuting the claim's characterization of excluded tiles (tile T2 keeps the
output non-empty). -/
theorem C7_counterexample :
    assign_tiles_to_flights
        [⟨"T1", some ⟨0, 0, 4, 1⟩⟩, ⟨"T2", some ⟨3, 0, 4, 1⟩⟩]
        [⟨some ⟨0, 0, 3, 1⟩, some ""⟩, ⟨some ⟨2, 0, 4, 1⟩, some "A"⟩]
      = Except.ok [⟨⟨"T2", some ⟨3, 0, 4, 1⟩⟩, 1, "A", 1⟩]
    ∧ Rect.bboxIntersects ⟨0, 0, 4, 1⟩ ⟨0, 0, 3, 1⟩ = true
    ∧ Rect.bboxIntersects ⟨0, 0, 4, 1⟩ ⟨2, 0, 4, 1⟩ = true
    ∧ 0 < (Rect.inter ⟨0, 0, 4, 1⟩ ⟨2, 0, 4, 1⟩).area
    ∧ emptyFlightVal (some "A") = false :=
  ⟨rfl, rfl, rfl, by decide, rfl⟩

/-- C7 amended: the output tile count is at most the input tile count, and
every excluded tile either has no geometry, or empty geometry, or has no
strictly positive intersection area with any indexed polygon, or its
winning (maximal-overlap) candidate has a missing/blank FlightID.  (The
original claim's two exclusion reasons — empty bounding-box intersection
with all polygons, or matching only blank-identifier polygons — are
corrected to zero intersection area and to the winner alone being blank.) -/
theorem C7_excluded_tiles_amended (grid : List GridTile) (polys : List FlightPoly) :
    (∀ res, assign_tiles_to_flights grid polys = Except.ok res →
        res.length ≤ grid.length)
    ∧ (∀ t : GridTile, assignOne (polyEntries polys) t = none →
        t.geom = none
        ∨ (∃ g, t.geom = some g ∧ g.isEmptyRect = true)
        ∨ (∃ g, t.geom = some g ∧ g.isEmptyRect = false
            ∧ ((∀ e ∈ polyEntries polys, (g.inter e.2.1).area ≤ 0)
               ∨ (∃ e ∈ candidatesFor (polyEntries polys) g,
                   0 < (g.inter e.2.1).area
                   ∧ (∀ e2 ∈ polyEntries polys,
                       (g.inter e2.2.1).area ≤ (g.inter e.2.1).area)
                   ∧ emptyFlightVal e.2.2 = true)))) := by
  constructor
  · intro res hres
    unfold assign_tiles_to_flights at hres
    by_cases h : (grid.filterMap (assignOne (polyEntries polys))).isEmpty = true
    · rw [if_pos h] at hres
      cases hres
    · rw [if_neg h] at hres
      injection hres with hres
      subst hres
      exact List.length_filterMap_le _ _
  · intro t hnone
    cases hg : t.geom with
    | none => exact Or.inl rfl
    | some g =>
      cases hge : g.isEmptyRect with
      | true => exact Or.inr (Or.inl ⟨g, rfl, hge⟩)
      | false =>
        refine Or.inr (Or.inr ⟨g, rfl, hge, ?_⟩)
        rcases assignOne_spec (polyEntries polys) (polyEntries_pairwise polys)
          t g hg hge with ⟨hall, _⟩ | ⟨l₁, e, l₂, hsplit, hlt, hmax, _, _, _, hok⟩
        · left
          intro e he
          by_cases hbb : g.bboxIntersects e.2.1 = true
          · exact hall e (List.mem_filter.mpr ⟨he, hbb⟩)
          · rw [Bool.not_eq_true] at hbb
            rw [area_inter_zero_of_not_bbox hbb]
        · right
          have hmem : e ∈ candidatesFor (polyEntries polys) g := by
            rw [hsplit]
            exact List.mem_append.mpr (Or.inr (List.mem_cons_self e l₂))
          refine ⟨e, hmem, hlt, hmax, ?_⟩
          cases hv : e.2.2 with
          | none => rfl
          | some v =>
            unfold emptyFlightVal
            show (pyStripStr v == "") = true
            by_cases hs : pyStripStr v = ""
            · rw [hs]
              exact beq_self_eq_true ""
            · exact absurd hnone (by rw [hok v hv hs]; intro hc; cases hc)

/-- Witness for C7's amended theorem at the counterexample input: one of
two tiles is assigned, so the output count (1) is at most the input count
(2). -/
theorem C7_witness :
    ([(⟨⟨"T2", some ⟨3, 0, 4, 1⟩⟩, 1, "A", 1⟩ : Assignment)]).length
      ≤ ([⟨"T1", some ⟨0, 0, 4, 1⟩⟩, ⟨"T2", some ⟨3, 0, 4, 1⟩⟩] : List GridTile).length := by
  exact (C7_excluded_tiles_amended
    [⟨"T1", some ⟨0, 0, 4, 1⟩⟩, ⟨"T2", some ⟨3, 0, 4, 1⟩⟩]
    [⟨some ⟨0, 0, 3, 1⟩, some ""⟩, ⟨some ⟨2, 0, 4, 1⟩, some "A"⟩]).1
    [⟨⟨"T2", some ⟨3, 0, 4, 1⟩⟩, 1, "A", 1⟩] (by rfl)

/-! ## C6: discovery order -/

lemma dictInsert_new (d : List (Nat × String)) (k : Nat) (v : String)
    (h : ∀ p ∈ d, p.1 ≠ k) : dictInsert d k v = d ++ [(k, v)] := by
  unfold dictInsert
  rw [if_neg]
  intro hc
  rcases List.any_eq_true.mp hc with ⟨p, hp, hpk⟩
  exact h p hp (by simpa using hpk)

lemma foldl_dictInsert_app : ∀ (ms : List (Nat × String)) (d : List (Nat × String)),
    (ms.map Prod.fst).Nodup → (∀ p ∈ d, ∀ q ∈ ms, p.1 ≠ q.1) →
    ms.foldl (fun acc pr => dictInsert acc pr.1 pr.2) d = d ++ ms := by
  intro ms
  induction ms with
  | nil =>
    intro d _ _
    simp
  | cons m rest ih =>
    intro d hnodup hdisj
    rw [List.foldl_cons,
      dictInsert_new d m.1 m.2 (fun p hp => hdisj p hp m (List.mem_cons_self m rest))]
    rw [List.map_cons, List.nodup_cons] at hnodup
    rw [ih (d ++ [(m.1, m.2)]) hnodup.2 ?_]
    · rw [List.append_assoc]
      rfl
    · intro p hp q hq
      rcases List.mem_append.mp hp with h1 | h1
      · exact hdisj p h1 q (List.mem_cons_of_mem m hq)
      · have hpm : p = (m.1, m.2) := by simpa using h1
        rw [hpm]
        intro hc
        exact hnodup.1 (hc ▸ List.mem_map.mpr ⟨q, hq, rfl⟩)

lemma fold_parse_eq : ∀ (names : List String) (d : List (Nat × String)),
    names.foldl (fun d name => match parseFlightFolder name with
      | some n => dictInsert d n name
      | none => d) d
    = (names.filterMap (fun nm => (parseFlightFolder nm).map (fun n => (n, nm)))).foldl
        (fun acc pr => dictInsert acc pr.1 pr.2) d := by
  intro names
  induction names with
  | nil =>
    intro d
    rfl
  | cons nm rest ih =>
    intro d
    rw [List.foldl_cons, List.filterMap_cons]
    cases hp : parseFlightFolder nm with
    | none =>
      simp only [hp, Option.map_none']
      exact ih d
    | some n =>
      simp only [hp, Option.map_some']
      rw [List.foldl_cons]
      exact ih (dictInsert d n nm)

lemma matches_snd_eq_filter (names : List String) :
    (names.filterMap (fun nm => (parseFlightFolder nm).map (fun n => (n, nm)))).map
        Prod.snd
      = names.filter (fun nm => (parseFlightFolder nm).isSome) := by
  induction names with
  | nil => rfl
  | cons nm rest ih =>
    rw [List.filterMap_cons, List.filter_cons]
    cases hp : parseFlightFolder nm with
    | none => simp [hp, ih]
    | some n => simp [hp, ih]

/-- C6 counterexample: with flight folders named F10 and F2, the dict is
built in lexical name order ("F10" < "F2" code-point-wise), so flight 10 is
processed before flight 2 — not in ascending numeric index order as the
claim states. -/
theorem C6_counterexample :
    flightOrder ["F10", "F2"] = [10, 2]
    ∧ ¬ List.Sorted (fun a b => a ≤ b) (flightOrder ["F10", "F2"]) := by
  refine ⟨rfl, ?_⟩
  intro h
  have h1 : flightOrder ["F10", "F2"] = [10, 2] := rfl
  rw [h1] at h
  have h2 := (List.sorted_cons.mp h).1 2 (List.mem_singleton.mpr rfl)
  omega

/-- C6 amended: flights are processed in lexical folder-name order of the
matching F folders (assuming no two matching folder names carry the same
flight number), i.e. the processing order is the flight numbers of the
lexically sorted matching folder names in that order — which differs from
ascending numeric order when digit counts differ (F10 before F2).  The
within-flight part of the claim stands: dated raster folders are processed
in lexical folder-name order. -/
theorem C6_discovery_order_amended (children : List String) (tifs : List DateFolder)
    (hnodup : ((sortedFlightMatches children).map Prod.fst).Nodup) :
    list_flight_folders children = sortedFlightMatches children
    ∧ flightOrder children = (sortedFlightMatches children).map Prod.fst
    ∧ List.Sorted strOrder ((sortedFlightMatches children).map Prod.snd)
    ∧ List.Sorted strOrder ((sortTifs tifs).map (fun d => d.folderName)) := by
  have hmain : list_flight_folders children = sortedFlightMatches children := by
    have h1 : list_flight_folders children
        = (sortedFlightMatches children).foldl
            (fun acc pr => dictInsert acc pr.1 pr.2) [] := by
      unfold list_flight_folders sortedFlightMatches
      exact fold_parse_eq _ []
    rw [h1,
      foldl_dictInsert_app _ [] hnodup (fun p hp => absurd hp (List.not_mem_nil p))]
    rfl
  refine ⟨hmain, by rw [flightOrder, hmain], ?_, ?_⟩
  · unfold sortedFlightMatches
    rw [matches_snd_eq_filter]
    exact List.Pairwise.filter _ (List.sorted_insertionSort strOrder children)
  · unfold sortTifs
    have hs := List.sorted_insertionSort dateFolderOrder tifs
    exact List.Pairwise.map _ (fun a b h => h) hs

/-- Witness for C6's amended theorem: three children, two of which match
the flight pattern; the processing order is the lexical order of the
matching names, 10 before 2. -/
theorem C6_witness :
    flightOrder ["F10", "F2", "notes"] = [10, 2] := by
  have h := (C6_discovery_order_amended ["F10", "F2", "notes"] [] (by decide)).2.1
  rw [h]
  rfl

/-- Witness for C10: a three-row tile table without an id column gets ids
0, 1, 2, and they head the output table of a one-date flight. -/
theorem C10_witness :
    ensureIdColumn ⟨none, 3⟩ = [0, 1, 2]
    ∧ ∃ T, process_flight (ensureIdColumn ⟨none, 3⟩)
        [⟨"F2_24_05_07", true, Except.ok [⟨some 1, some 0, some 4⟩, ⟨some 2, some 0, some 4⟩,
          ⟨some 3, some 0, some 4⟩]⟩] = some T
      ∧ T.head? = some ("id", [some 0, some 1, some 2]) := by
  obtain ⟨h1, _, h3⟩ := C10_id_column ⟨none, 3⟩
    [⟨"F2_24_05_07", true, Except.ok [⟨some 1, some 0, some 4⟩, ⟨some 2, some 0, some 4⟩,
      ⟨some 3, some 0, some 4⟩]⟩]
    (by decide) (by decide)
  exact ⟨h1 rfl, h3⟩

/-! ## C8: the parallel coordinator's summary -/

lemma taskResult_flight_num {tasks : List TaskOutcome}
    (hok : ∀ p ∈ tasks, ∀ r, p.2 = Except.ok r → r.flight_num = p.1) :
    (tasks.map taskResult).map (fun r => r.flight_num) = tasks.map Prod.fst := by
  rw [List.map_map]
  apply List.map_congr_left
  intro p hp
  cases hr : p.2 with
  | ok r =>
    show (taskResult p).flight_num = p.1
    unfold taskResult
    rw [hr]
    exact hok p hp r hr
  | error e =>
    show (taskResult p).flight_num = p.1
    unfold taskResult
    rw [hr]
    rfl

lemma sorted_strict_of_nodup_keys {l : List WorkerResult}
    (hs : l.Sorted resultOrder)
    (hn : (l.map (fun r => r.flight_num)).Nodup) :
    l.Sorted (fun a b => a.flight_num < b.flight_num) := by
  have hn2 : l.Pairwise (fun a b => a.flight_num ≠ b.flight_num) :=
    List.pairwise_map.mp hn
  exact (hs.and hn2).imp (fun h => Nat.lt_of_le_of_ne h.1 h.2)

lemma summarize_perm (results : List WorkerResult) :
    (summarize results).Perm results := by
  unfold summarize
  exact List.perm_insertionSort resultOrder results

lemma summarize_sorted (results : List WorkerResult) :
    (summarize results).Sorted resultOrder := by
  unfold summarize
  exact List.sorted_insertionSort resultOrder results

/-- C8: for the discovered tasks (one per flight, flight numbers
distinct), however the completions are ordered, the final summary equals
the summary of the tasks' own results: it contains exactly one result per
flight, is sorted by flight number, a worker whose future raised
contributes the coordinator's error result, and a worker that returned
normally contributes its own result — one flight's crash suppressing
nobody else's entry. -/
theorem C8_summary_per_flight (tasks completed : List TaskOutcome)
    (hperm : completed.Perm tasks)
    (hkeys : (tasks.map Prod.fst).Nodup)
    (hok : ∀ p ∈ tasks, ∀ r, p.2 = Except.ok r → r.flight_num = p.1) :
    summarize (collectResults completed) = summarize (tasks.map taskResult)
    ∧ (summarize (collectResults completed)).Sorted resultOrder
    ∧ ((summarize (collectResults completed)).map (fun r => r.flight_num)).Perm
        (tasks.map Prod.fst)
    ∧ (∀ p ∈ tasks, ∀ e, p.2 = Except.error e →
        crashResult p.1 e ∈ summarize (collectResults completed))
    ∧ (∀ p ∈ tasks, ∀ r, p.2 = Except.ok r →
        r ∈ summarize (collectResults completed)) := by
  have hcoll : collectResults completed = completed.map taskResult := rfl
  have hpm : (completed.map taskResult).Perm (tasks.map taskResult) :=
    hperm.map taskResult
  have hchain : (summarize (collectResults completed)).Perm (tasks.map taskResult) := by
    rw [hcoll]
    exact (summarize_perm (completed.map taskResult)).trans hpm
  have hkeys2 : ((tasks.map taskResult).map (fun r => r.flight_num)).Nodup := by
    rw [taskResult_flight_num hok]
    exact hkeys
  have hk1 : ((summarize (collectResults completed)).map (fun r => r.flight_num)).Nodup :=
    ((hchain.map (fun r => r.flight_num)).nodup_iff).mpr hkeys2
  have hk2 : ((summarize (tasks.map taskResult)).map (fun r => r.flight_num)).Nodup :=
    (((summarize_perm (tasks.map taskResult)).map (fun r => r.flight_num)).nodup_iff).mpr
      hkeys2
  have hsorted1 := summarize_sorted (collectResults completed)
  have hsorted2 := summarize_sorted (tasks.map taskResult)
  have hmaineq : summarize (collectResults completed) = summarize (tasks.map taskResult) := by
    letI : IsAntisymm WorkerResult (fun a b => a.flight_num < b.flight_num) :=
      ⟨fun a b h1 h2 => absurd (Nat.lt_trans h1 h2) (Nat.lt_irrefl _)⟩
    exact List.eq_of_perm_of_sorted
      (hchain.trans (summarize_perm (tasks.map taskResult)).symm)
      (sorted_strict_of_nodup_keys hsorted1 hk1)
      (sorted_strict_of_nodup_keys hsorted2 hk2)
  refine ⟨hmaineq, hsorted1, ?_, ?_, ?_⟩
  · have := hchain.map (fun r => r.flight_num)
    rw [taskResult_flight_num hok] at this
    exact this
  · intro p hp e he
    have hmem : taskResult p ∈ tasks.map taskResult := List.mem_map.mpr ⟨p, hp, rfl⟩
    have htr : taskResult p = crashResult p.1 e := by
      unfold taskResult
      rw [he]
    rw [← htr]
    exact hchain.symm.subset hmem
  · intro p hp r hr
    have hmem : taskResult p ∈ tasks.map taskResult := List.mem_map.mpr ⟨p, hp, rfl⟩
    have htr : taskResult p = r := by
      unfold taskResult
      rw [hr]
    rw [← htr]
    exact hchain.symm.subset hmem

/-- Witness for C8 at two concrete flights completing in reversed order,
one of them crashing: the summary lists flight 1's own result then the
coordinator's error entry for flight 2. -/
theorem C8_witness :
    summarize (collectResults
        [(2, Except.error "boom"), (1, Except.ok ⟨1, "ok", "Saved", none, 2⟩)])
      = [⟨1, "ok", "Saved", none, 2⟩, ⟨2, "error", "boom", none, 0⟩] := by
  have h := C8_summary_per_flight
    [(1, Except.ok ⟨1, "ok", "Saved", none, 2⟩), (2, Except.error "boom")]
    [(2, Except.error "boom"), (1, Except.ok ⟨1, "ok", "Saved", none, 2⟩)]
    (List.Perm.swap _ _ _)
    (by decide)
    (by
      intro p hp r hr
      rcases List.mem_cons.mp hp with h1 | h1
      · rw [h1] at hr
        injection hr with hr
        rw [← hr, h1]
      · have h2 : p = (2, Except.error "boom") := by simpa using h1
        rw [h2] at hr
        cases hr)
  rw [h.1]
  rfl
